import Mathlib

/-
Verification of the SSA (space situational awareness) core of this repository:
shallow embedding, in Lean, of the conjunction-assessment engine, the covariance
model, the conjunction screening pipeline, the third-body force model, the
analytic TLE propagator and the CDM serializer, together with proofs and
refutations of the specified properties.

Conventions of the embedding:
 - Python floats are modelled by real numbers (`ℝ`); exact element values that
   only flow through field-free arithmetic and comparisons are modelled by `ℚ`
   where that keeps statements decidable.
 - numpy 3-vectors are modelled by the record `V3`; `np.linalg.norm` is the
   Euclidean norm `V3.norm`.
 - Functions of external libraries (scipy's scalar minimizer, the caller-supplied
   propagate function, the sgp4 routine, the random UUID source, the wall clock)
   are parameters of the embedded functions: the repository treats them as
   opaque inputs.
-/

set_option maxHeartbeats 1000000

open scoped Matrix

/-! ## Euclidean 3-vectors (numpy arrays of length 3) -/

/-- A numpy 3-vector. -/
structure V3 where
  x : ℝ
  y : ℝ
  z : ℝ

namespace V3

@[ext] lemma ext {a b : V3} (hx : a.x = b.x) (hy : a.y = b.y) (hz : a.z = b.z) :
    a = b := by
  cases a; cases b; simp_all

instance : Add V3 := ⟨fun a b => ⟨a.x + b.x, a.y + b.y, a.z + b.z⟩⟩

instance : Sub V3 := ⟨fun a b => ⟨a.x - b.x, a.y - b.y, a.z - b.z⟩⟩

instance : Neg V3 := ⟨fun a => ⟨-a.x, -a.y, -a.z⟩⟩

instance : SMul ℝ V3 := ⟨fun c a => ⟨c * a.x, c * a.y, c * a.z⟩⟩

instance : Zero V3 := ⟨⟨0, 0, 0⟩⟩

/-- Componentwise division of a numpy vector by a scalar (`vec / c`). -/
noncomputable def sdiv (a : V3) (c : ℝ) : V3 := ⟨a.x / c, a.y / c, a.z / c⟩

/-- Dot product (`np.dot`). -/
def dot (a b : V3) : ℝ := a.x * b.x + a.y * b.y + a.z * b.z

/-- Euclidean norm (`np.linalg.norm`). -/
noncomputable def norm (a : V3) : ℝ := Real.sqrt (a.x ^ 2 + a.y ^ 2 + a.z ^ 2)

@[simp] lemma add_def (a b : V3) : a + b = ⟨a.x + b.x, a.y + b.y, a.z + b.z⟩ := rfl

@[simp] lemma sub_def (a b : V3) : a - b = ⟨a.x - b.x, a.y - b.y, a.z - b.z⟩ := rfl

@[simp] lemma smul_def (c : ℝ) (a : V3) : c • a = ⟨c * a.x, c * a.y, c * a.z⟩ := rfl

@[simp] lemma zero_def : (0 : V3) = ⟨0, 0, 0⟩ := rfl

lemma norm_nonneg (a : V3) : 0 ≤ a.norm := Real.sqrt_nonneg _

lemma norm_sq (a : V3) : a.norm ^ 2 = a.x ^ 2 + a.y ^ 2 + a.z ^ 2 := by
  unfold norm
  exact Real.sq_sqrt (add_nonneg (add_nonneg (sq_nonneg _) (sq_nonneg _)) (sq_nonneg _))

lemma norm_eq_sqrt_dot (a : V3) : a.norm = Real.sqrt (a.dot a) := by
  unfold norm dot; ring_nf

lemma dot_self_nonneg (a : V3) : 0 ≤ a.dot a := by
  unfold dot
  nlinarith [sq_nonneg a.x, sq_nonneg a.y, sq_nonneg a.z]

lemma norm_smul (c : ℝ) (a : V3) : (c • a).norm = |c| * a.norm := by
  unfold norm
  simp only [smul_def]
  rw [show (c * a.x) ^ 2 + (c * a.y) ^ 2 + (c * a.z) ^ 2
        = c ^ 2 * (a.x ^ 2 + a.y ^ 2 + a.z ^ 2) by ring,
    Real.sqrt_mul (sq_nonneg c), Real.sqrt_sq_eq_abs]

lemma dot_le_norm_mul_norm (a b : V3) : a.dot b ≤ a.norm * b.norm := by
  have hsq : (a.dot b) ^ 2 ≤ (a.norm * b.norm) ^ 2 := by
    rw [mul_pow, norm_sq, norm_sq]
    unfold dot
    nlinarith [sq_nonneg (a.x * b.y - a.y * b.x), sq_nonneg (a.x * b.z - a.z * b.x),
      sq_nonneg (a.y * b.z - a.z * b.y)]
  have hnn : 0 ≤ a.norm * b.norm := mul_nonneg (norm_nonneg a) (norm_nonneg b)
  nlinarith [hsq, hnn]

lemma norm_add_le (a b : V3) : (a + b).norm ≤ a.norm + b.norm := by
  have h1 : (a + b).norm ^ 2 ≤ (a.norm + b.norm) ^ 2 := by
    rw [norm_sq]
    have hd := dot_le_norm_mul_norm a b
    have ha := norm_sq a
    have hb := norm_sq b
    simp only [add_def]
    unfold dot at hd
    nlinarith [hd, ha, hb]
  have h2 : 0 ≤ a.norm + b.norm := add_nonneg (norm_nonneg a) (norm_nonneg b)
  nlinarith [norm_nonneg (a + b)]

lemma norm_sub_norm_le (a b : V3) : a.norm - b.norm ≤ (a - b).norm := by
  have h : a = b + (a - b) := by
    ext <;> simp
  have := norm_add_le b (a - b)
  calc a.norm - b.norm = (b + (a - b)).norm - b.norm := by rw [← h]
    _ ≤ (b.norm + (a - b).norm) - b.norm := by linarith
    _ = (a - b).norm := by ring

end V3

/-! ## `src/ssa/ca/conjunction.py`: ConjunctionAssessmentEngine -/

/-- A state dict as consumed by `ConjunctionAssessmentEngine.closest_approach`:
`position` in km, `velocity` in km/s. -/
structure CaState where
  position : V3
  velocity : V3

/-- The running `best` record of `closest_approach` (the serialized fields
`t_offset_s`, `miss_distance_km`, `rel_speed_kms`, `p1_km`, `p2_km`). -/
structure CaBest where
  t_offset_s : ℝ
  miss_distance_km : ℝ
  rel_speed_kms : ℝ
  p1_km : V3
  p2_km : V3

/-- One pass of the sampling loop body of `closest_approach` at time offset `t`:
replace `best` when the current separation is strictly smaller.  `none` models
the initial `miss_distance_km = float("inf")` record, which any finite
separation beats. -/
noncomputable def caUpdate (p10 v10 p20 v20 : V3) (t : ℝ) (best : Option CaBest) :
    Option CaBest :=
  let p1 := p10 + t • v10
  let p2 := p20 + t • v20
  let rel := p2 - p1
  let miss := rel.norm
  match best with
  | none => some ⟨t, miss, (v20 - v10).norm, p1, p2⟩
  | some b =>
      if miss < b.miss_distance_km then some ⟨t, miss, (v20 - v10).norm, p1, p2⟩
      else some b

/-- Number of passes of `while t <= window_s` when `t` starts at `0` and is
incremented by `step_s > 0`: the body runs for `t = k·step_s` with
`k·step_s ≤ window_s`, i.e. for `k ∈ {0, …, ⌊window_s/step_s⌋}`. -/
noncomputable def caIterCount (window_s step_s : ℝ) : ℕ :=
  if window_s < 0 then 0 else (⌊window_s / step_s⌋).toNat + 1

/-- `ConjunctionAssessmentEngine.closest_approach` (src/ssa/ca/conjunction.py,
lines 25-63): coarse sampling of the straight-line separation over
`t ∈ {0, step_s, 2·step_s, …} ∩ [0, window_s]`, keeping the first strict
minimum.  Returns `none` exactly when the loop body never ran (negative
window), where the source would return its `inf` initializer. -/
noncomputable def closest_approach (state1 state2 : CaState)
    (window_s step_s : ℝ) : Option CaBest :=
  (List.range (caIterCount window_s step_s)).foldl
    (fun best (k : ℕ) =>
      caUpdate state1.position state1.velocity state2.position state2.velocity
        ((k : ℝ) * step_s) best)
    none

/-- Result dict of `ConjunctionAssessmentEngine.collision_probability`. -/
structure PcResult where
  pc : ℝ
  risk : String
  sigma_km : ℝ
  hbr_km : ℝ

/-- The top-left 3×3 position block `cov[0:3, 0:3]` of a 6×6 covariance. -/
def posBlock (M : Matrix (Fin 6) (Fin 6) ℝ) : Matrix (Fin 3) (Fin 3) ℝ :=
  M.submatrix (Fin.castLE (by norm_num)) (Fin.castLE (by norm_num))

/-- `ConjunctionAssessmentEngine.collision_probability`
(src/ssa/ca/conjunction.py, lines 65-111).  `hard_body_radius_m` is the
engine's configured HBR field (default 10.0 m); all other quantities are in km
as in the source. -/
noncomputable def collision_probability (hard_body_radius_m : ℝ)
    (miss_distance_km : ℝ) (cov1 cov2 : Matrix (Fin 6) (Fin 6) ℝ) : PcResult :=
  let P := posBlock cov1 + posBlock cov2
  let sigma2 := P.trace / 3
  let sigma := Real.sqrt (max sigma2 1e-12)
  let hbr_km := hard_body_radius_m / 1000
  let d := miss_distance_km
  let base := Real.exp (-(d * d) / (2 * sigma * sigma))
  let scale := min 1 ((hbr_km / max sigma 1e-9) ^ 2)
  let pc := min 1 (base * scale)
  let risk :=
    if pc ≥ 1e-3 then "CRITICAL"
    else if pc ≥ 1e-4 then "HIGH"
    else if pc ≥ 1e-6 then "MEDIUM"
    else "LOW"
  ⟨pc, risk, sigma, hbr_km⟩

/-! ## `src/ssa/ca/covariance.py`: CovarianceModel -/

/-- Process-noise configuration of `CovarianceModel` (the dataclass fields
`sigma_pos_km = 0.05`, `sigma_vel_kms = 0.0001`). -/
structure CovarianceModel where
  sigma_pos_km : ℝ
  sigma_vel_kms : ℝ

/-- `CovarianceModel.init_covariance`: diagonal covariance with `σ_pos²` on the
three position entries and `σ_vel²` on the three velocity entries. -/
def init_covariance (sigma_pos_km sigma_vel_kms : ℝ) :
    Matrix (Fin 6) (Fin 6) ℝ :=
  Matrix.diagonal fun i =>
    if i.val < 3 then sigma_pos_km ^ 2 else sigma_vel_kms ^ 2

/-- The constant-velocity state transition `F` of `CovarianceModel.propagate`:
identity with `F[0,3] = F[1,4] = F[2,5] = dt_s`. -/
def covF (dt_s : ℝ) : Matrix (Fin 6) (Fin 6) ℝ :=
  Matrix.of fun i j =>
    if i = j then 1 else if i.val + 3 = j.val then dt_s else 0

/-- The diagonal process noise `Q` of `CovarianceModel.propagate`:
`σ_pos²·max(dt,1)` on position entries, `σ_vel²·max(dt,1)` on velocity
entries. -/
def covQ (m : CovarianceModel) (dt_s : ℝ) : Matrix (Fin 6) (Fin 6) ℝ :=
  Matrix.diagonal fun i =>
    if i.val < 3 then m.sigma_pos_km ^ 2 * max dt_s 1
    else m.sigma_vel_kms ^ 2 * max dt_s 1

/-- `CovarianceModel.propagate` (src/ssa/ca/covariance.py, lines 36-55):
`P' = F P Fᵀ + Q`. -/
def CovarianceModel.propagate (m : CovarianceModel)
    (P : Matrix (Fin 6) (Fin 6) ℝ) (dt_s : ℝ) : Matrix (Fin 6) (Fin 6) ℝ :=
  covF dt_s * P * (covF dt_s)ᵀ + covQ m dt_s

/-- The module-level `_cov_model = CovarianceModel()` of
src/api/routes_ssa.py, carrying the dataclass defaults. -/
def routesCovModel : CovarianceModel := ⟨0.05, 0.0001⟩

/-! ## `src/api/routes_ssa.py`: conjunction_assess (lines 232-300) -/

/-- A validated `ConjunctionAssessRequest` body. -/
structure AssessRequest where
  object1_id : String
  object2_id : String
  window_s : ℝ
  step_s : ℝ
  sigma_pos_km : ℝ
  sigma_vel_kms : ℝ
  hard_body_radius_m : ℝ

/-- The event dict stored into `CONJUNCTION_EVENTS` by `conjunction_assess`. -/
structure ConjunctionEvent where
  event_id : String
  created_at : String
  tca_utc : String
  miss_distance_km : ℝ
  rel_speed_kms : ℝ
  pc : ℝ
  risk : String
  cov_object1 : Matrix (Fin 6) (Fin 6) ℝ
  cov_object2 : Matrix (Fin 6) (Fin 6) ℝ
  object1_id : String
  object1_state : CaState
  object2_id : String
  object2_state : CaState

/-- The event-id construction of `conjunction_assess` (routes_ssa.py line 262):
`"CDM-" + uuid.uuid4().hex[:12].upper()`, as a function of the hex string of
the freshly generated random UUID.  The slice `[:12]` and `.upper()` are
modelled on the character list of the string (`.upper()` upcases each
character; exact for the ASCII hex strings `uuid4().hex` produces). -/
def eventIdOf (uuid4_hex : String) : String :=
  "CDM-" ++ String.mk ((uuid4_hex.data.take 12).map Char.toUpper)

/-- `conjunction_assess` (src/api/routes_ssa.py, lines 232-300).  The two
state dicts `s1`, `s2` are the fused states looked up for the two object ids;
`uuid4_hex` is the hex string of the `uuid.uuid4()` call and `utcnow_iso` the
ISO string of `datetime.utcnow()` — both are outputs of external sources that
the function merely consumes.  The `.getD` default models the unreachable
`float("inf")` initializer of `closest_approach` (the request validator forces
`window_s ≥ 10`, so the sampling loop always runs). -/
noncomputable def conjunction_assess (req : AssessRequest) (s1 s2 : CaState)
    (uuid4_hex : String) (utcnow_iso : String) : ConjunctionEvent :=
  let P1 := init_covariance req.sigma_pos_km req.sigma_vel_kms
  let P2 := init_covariance req.sigma_pos_km req.sigma_vel_kms
  let P1p := routesCovModel.propagate P1 req.window_s
  let P2p := routesCovModel.propagate P2 req.window_s
  let ca := (closest_approach s1 s2 req.window_s req.step_s).getD
    ⟨0, 0, 0, s1.position, s2.position⟩
  let pcr := collision_probability req.hard_body_radius_m ca.miss_distance_km P1p P2p
  { event_id := eventIdOf uuid4_hex
    created_at := utcnow_iso
    tca_utc := utcnow_iso
    miss_distance_km := ca.miss_distance_km
    rel_speed_kms := ca.rel_speed_kms
    pc := pcr.pc
    risk := pcr.risk
    cov_object1 := P1p
    cov_object2 := P2p
    object1_id := req.object1_id
    object1_state := s1
    object2_id := req.object2_id
    object2_state := s2 }

/-! ## `src/src/ssa_engine/conjunction/basic.py` -/

/-- `short_arc_tca` (basic.py, lines 5-34): analytic time of closest approach
and miss distance for constant relative velocity.  Note the source rebinds the
name `v2` to the scalar `np.dot(rel_v, rel_v)`; that scalar is `v2d` here.
The returned time is NOT clamped to any window. -/
noncomputable def short_arc_tca (r1 v1 r2 v2 : V3) : ℝ × ℝ :=
  let rel_r := r1 - r2
  let rel_v := v1 - v2
  let rv_dot := rel_r.dot rel_v
  let v2d := rel_v.dot rel_v
  if v2d < 1e-8 then (0, rel_r.norm)
  else
    let t_tca := -rv_dot / v2d
    (t_tca, (rel_r + t_tca • rel_v).norm)

/-- A 6-dimensional state `[rx, ry, rz, vx, vy, vz]`, split as the source does
with `state[:3]` and `state[3:]`. -/
structure PState where
  r : V3
  v : V3

/-- `np.linspace(a, b, n)`: `n` evenly spaced samples from `a` to `b`
inclusive. -/
noncomputable def linspace (a b : ℝ) (n : ℕ) : List ℝ :=
  (List.range n).map fun (k : ℕ) => a + (b - a) * (k : ℝ) / ((n : ℝ) - 1)

/-- Tail of `np.argmin`: scan the remaining values, keeping the index of the
first strict improvement over the current best value. -/
noncomputable def argminAux : List ℝ → ℕ → ℕ → ℝ → ℕ
  | [], _, bi, _ => bi
  | d :: rest, i, bi, bv =>
      if d < bv then argminAux rest (i + 1) i d else argminAux rest (i + 1) bi bv

/-- `np.argmin` on a list of distances: index of the first occurrence of the
minimum (0 on the empty list, which numpy rejects). -/
noncomputable def argminIdx : List ℝ → ℕ
  | [] => 0
  | d :: rest => argminAux rest 1 0 d

/-- `numerical_min_distance` (basic.py, lines 38-71).  `propagate_func` is the
caller-supplied propagator, sampled pointwise on the coarse grid;
`minimize_scalar` is scipy's bounded scalar minimizer, an external routine
modelled as a parameter mapping (objective, lower bound, upper bound) to
`(res.x, res.fun)`. -/
noncomputable def numerical_min_distance
    (propagate_func : PState → ℝ → V3)
    (minimize_scalar : (ℝ → ℝ) → ℝ → ℝ → ℝ × ℝ)
    (state1 state2 : PState) (t_span : ℝ) (num_coarse : ℕ) : ℝ × ℝ :=
  let times_coarse := linspace 0 t_span num_coarse
  let rel_dist := times_coarse.map fun t =>
    (propagate_func state1 t - propagate_func state2 t).norm
  let idx_min := argminIdx rel_dist
  let t_coarse_min := times_coarse.getD idx_min 0
  let distance_at_t := fun t => (propagate_func state1 t - propagate_func state2 t).norm
  minimize_scalar distance_at_t (max 0 (t_coarse_min - t_span / 10))
    (min t_span (t_coarse_min + t_span / 10))

/-! ## `src/src/ssa_engine/conjunction/pipeline.py` -/

/-- One candidate dict appended by `conjunction_pipeline`. -/
structure Candidate where
  object_id : String
  tca_seconds : ℝ
  miss_distance_m : ℝ
  relative_velocity : ℝ

/-- The sort key relation of `candidates.sort(key=lambda x: x['miss_distance_m'])`. -/
def missLE (a b : Candidate) : Prop := a.miss_distance_m ≤ b.miss_distance_m

noncomputable instance : DecidableRel missLE := fun a b =>
  Real.decidableLE a.miss_distance_m b.miss_distance_m

instance : IsTotal Candidate missLE := ⟨fun _ _ => le_total _ _⟩

instance : IsTrans Candidate missLE := ⟨fun _ _ _ => le_trans⟩

/-- The `candidates` list built by the screening loop of
`conjunction_pipeline` (pipeline.py, lines 13-31), in catalog order: stage-1
short-arc screen (`0 < tca < t_span and miss < screen_threshold_km * 1000`),
then stage-2 numerical refinement of the survivors, retained when the refined
miss is below `risk_threshold_m`. -/
noncomputable def pipelineCandidates
    (propagate_func : PState → ℝ → V3)
    (minimize_scalar : (ℝ → ℝ) → ℝ → ℝ → ℝ × ℝ)
    (primary_state : PState) (catalog_states : List (String × PState))
    (t_span : ℝ) (screen_threshold_km : ℝ) (risk_threshold_m : ℝ) :
    List Candidate :=
  catalog_states.filterMap fun p =>
    let idx := p.1
    let secondary_state := p.2
    let tm := short_arc_tca primary_state.r primary_state.v
      secondary_state.r secondary_state.v
    if 0 < tm.1 ∧ tm.1 < t_span ∧ tm.2 < screen_threshold_km * 1000 then
      let pr := numerical_min_distance propagate_func minimize_scalar
        primary_state secondary_state t_span 500
      if pr.2 < risk_threshold_m then
        some ⟨idx, pr.1, pr.2, (primary_state.v - secondary_state.v).norm⟩
      else none
    else none

/-- `conjunction_pipeline` (pipeline.py, lines 4-34): the screening loop, then
`candidates.sort(key=lambda x: x[\x27miss_distance_m\x27])`.  Python's `list.sort`
is a stable sort keyed only on the miss distance; any stable sort computes the
same list, and it is modelled by the (stable) insertion sort on the key
relation `missLE`. -/
noncomputable def conjunction_pipeline
    (propagate_func : PState → ℝ → V3)
    (minimize_scalar : (ℝ → ℝ) → ℝ → ℝ → ℝ × ℝ)
    (primary_state : PState) (catalog_states : List (String × PState))
    (t_span : ℝ) (screen_threshold_km : ℝ) (risk_threshold_m : ℝ) :
    List Candidate :=
  List.insertionSort missLE (pipelineCandidates propagate_func minimize_scalar
    primary_state catalog_states t_span screen_threshold_km risk_threshold_m)

/-! ## `src/src/ssa_engine/perturbations/third_body.py`

The source computes everything through local variables; here each local gets a
named definition so that the theorems can speak about it. -/

def MU_SUN : ℝ := 1.3271244e20

def MU_MOON : ℝ := 4.9048695e12

def AU : ℝ := 1.495978707e11

/-- numpy `%` on floats with a positive divisor: `a - b·⌊a/b⌋`. -/
noncomputable def fmod (a b : ℝ) : ℝ := a - b * ⌊a / b⌋

/-- `np.deg2rad`. -/
noncomputable def deg2rad (d : ℝ) : ℝ := d * Real.pi / 180

/-- Local `L` of `get_sun_position`. -/
noncomputable def sunL (jd : ℝ) : ℝ :=
  deg2rad (fmod (280.460 + 0.98564736 * (jd - 2451545.0)) 360)

/-- Local `g` of `get_sun_position`. -/
noncomputable def sunG (jd : ℝ) : ℝ :=
  deg2rad (fmod (357.528 + 0.98560028 * (jd - 2451545.0)) 360)

/-- Local `ecl_long` of `get_sun_position` (after its `% (2π)`). -/
noncomputable def sunEclLong (jd : ℝ) : ℝ :=
  fmod (sunL jd + deg2rad (1.915 * Real.sin (sunG jd) + 0.020 * Real.sin (2 * sunG jd)))
    (2 * Real.pi)

/-- Local `obliquity` of `get_sun_position`. -/
noncomputable def sunObliquity (jd : ℝ) : ℝ :=
  deg2rad (23.439 - 0.00000036 * (jd - 2451545.0))

/-- Local `dist_au` of `get_sun_position`. -/
noncomputable def sunDistAu (jd : ℝ) : ℝ :=
  1.00014 - 0.01671 * Real.cos (sunG jd) - 0.00014 * Real.cos (2 * sunG jd)

/-- `get_sun_position` (third_body.py, lines 8-19). -/
noncomputable def get_sun_position (jd : ℝ) : V3 :=
  AU • (⟨sunDistAu jd * Real.cos (sunEclLong jd),
    sunDistAu jd * Real.cos (sunObliquity jd) * Real.sin (sunEclLong jd),
    sunDistAu jd * Real.sin (sunObliquity jd) * Real.sin (sunEclLong jd)⟩ : V3)

/-- Local `T` of `get_moon_position`. -/
noncomputable def moonT (jd : ℝ) : ℝ := (jd - 2451545.0) / 36525.0

/-- Local `L0` of `get_moon_position`. -/
noncomputable def moonL0 (jd : ℝ) : ℝ :=
  fmod (deg2rad (218.31617 + 481267.8813 * moonT jd)) (2 * Real.pi)

/-- Local `l` of `get_moon_position`. -/
noncomputable def moonl (jd : ℝ) : ℝ :=
  fmod (deg2rad (134.96292 + 477198.8676 * moonT jd)) (2 * Real.pi)

/-- Local `lp` of `get_moon_position`. -/
noncomputable def moonlp (jd : ℝ) : ℝ :=
  fmod (deg2rad (357.52577 + 35999.0503 * moonT jd)) (2 * Real.pi)

/-- Local `F` of `get_moon_position`. -/
noncomputable def moonF (jd : ℝ) : ℝ :=
  fmod (deg2rad (93.27209 + 483202.0175 * moonT jd)) (2 * Real.pi)

/-- Local `D` of `get_moon_position`. -/
noncomputable def moonD (jd : ℝ) : ℝ :=
  fmod (deg2rad (297.85019 + 445267.1115 * moonT jd)) (2 * Real.pi)

/-- Local `dist` of `get_moon_position`. -/
noncomputable def moonDist (jd : ℝ) : ℝ :=
  385000e3 * (1 - 0.0167 * Real.cos (moonl jd - moonlp jd))

/-- Local `lon` of `get_moon_position`. -/
noncomputable def moonLon (jd : ℝ) : ℝ :=
  moonL0 jd + deg2rad (6.289 * Real.sin (moonl jd) + 1.274 * Real.sin (2 * moonD jd - moonl jd))

/-- Local `lat` of `get_moon_position`. -/
noncomputable def moonLat (jd : ℝ) : ℝ := deg2rad (5.128 * Real.sin (moonF jd))

/-- `get_moon_position` (third_body.py, lines 22-39). -/
noncomputable def get_moon_position (jd : ℝ) : V3 :=
  ⟨moonDist jd * Real.cos (moonLat jd) * Real.cos (moonLon jd),
   moonDist jd * Real.cos (moonLat jd) * Real.sin (moonLon jd) * Real.cos (deg2rad 23.439),
   moonDist jd * (Real.sin (moonLat jd) * Real.cos (deg2rad 23.439)
     + Real.cos (moonLat jd) * Real.sin (moonLon jd) * Real.sin (deg2rad 23.439))⟩

/-- `third_body_acceleration` (third_body.py, lines 41-59).  The source also
computes `r3 = norm(r_sat)**3`, which it never uses; that dead local is
omitted. -/
noncomputable def third_body_acceleration (r_sat : V3) (jd : ℝ)
    (include_sun : Bool) (include_moon : Bool) : V3 :=
  let a0 : V3 := 0
  let a1 :=
    if include_sun then
      let r_sun := get_sun_position jd
      let r_sun_sat := r_sat - r_sun
      let r_sun3 := r_sun_sat.norm ^ 3
      let r_sun_norm3 := r_sun.norm ^ 3
      a0 + MU_SUN • (r_sun_sat.sdiv r_sun3 - r_sun.sdiv r_sun_norm3)
    else a0
  let a2 :=
    if include_moon then
      let r_moon := get_moon_position jd
      let r_moon_sat := r_sat - r_moon
      let r_moon3 := r_moon_sat.norm ^ 3
      let r_moon_norm3 := r_moon.norm ^ 3
      a1 + MU_MOON • (r_moon_sat.sdiv r_moon3 - r_moon.sdiv r_moon_norm3)
    else a1
  a2

/-! ## `src/src/ssa/propagator.py` and `src/src/ssa/screening.py`

`Satrec.twoline2rv` and `sat.sgp4` belong to the external `sgp4` library: the
element values it parses and the `(error_code, position, velocity)` triple it
returns are inputs of the embedded functions.  Element values flow only through
comparisons, so they are modelled exactly by `ℚ`. -/

/-- The parsed element fields of a `Satrec` that `validate_orbital_elements`
inspects. -/
structure SatElems where
  ecco : ℚ
  no_kozai : ℚ
  inclo : ℚ

/-- The `(error_code, position, velocity)` result of a `sat.sgp4(jd, fr)`
call. -/
structure SgpRes where
  error_code : ℤ
  position : V3
  velocity : V3

/-- `validate_orbital_elements` (propagator.py, lines 41-57): `ValueError`
(modelled as `Except.error`) exactly on the three element constraints,
otherwise the list of anomaly flags. -/
def validate_orbital_elements (sat : SatElems) : Except String (List String) :=
  if ¬(0 ≤ sat.ecco ∧ sat.ecco < 1) then
    Except.error "Invalid eccentricity - must be 0 <= e < 1"
  else
    let flags :=
      (if sat.ecco > 0.3 then
        ["Highly eccentric orbit - potential maneuverable/co-orbital threat"] else [])
      ++ (if sat.ecco > 0.7 then
        ["CRITICAL: Ballistic/hypersonic reentry trajectory anomaly"] else [])
    if sat.no_kozai ≤ 0 then Except.error "Invalid mean motion (<= 0)"
    else if ¬(0 ≤ sat.inclo ∧ sat.inclo ≤ 180) then
      Except.error "Invalid inclination"
    else Except.ok flags

/-- The fields of the result dict of `propagate_tle` that downstream code
consumes (the presentation-only fields — ISO timestamp, source label, rounded
speed and eccentricity — are elided). -/
structure PropOut where
  position_eci_km : V3
  velocity_eci_km_s : V3
  anomaly_flags : List String

/-- `propagate_tle` (propagator.py, lines 59-86): element validation, then the
SGP4 call whose nonzero error code raises `ValueError`, then hypervelocity
flags from `np.linalg.norm(velocity)`. -/
noncomputable def propagate_tle (sat : SatElems) (res : SgpRes) :
    Except String PropOut :=
  match validate_orbital_elements sat with
  | Except.error e => Except.error e
  | Except.ok base_flags =>
      if res.error_code ≠ 0 then Except.error "SGP4 propagation error code"
      else
        let speed_kms := res.velocity.norm
        let flags := base_flags
          ++ (if speed_kms > 8.5 then
            ["Hypervelocity - potential hypersonic glider/ICBM stage"] else [])
          ++ (if speed_kms > 10.0 then
            ["CRITICAL: Extreme hypervelocity anomaly - contested domain threat"] else [])
        Except.ok ⟨res.position, res.velocity,
          if flags.isEmpty then ["Nominal orbit"] else flags⟩

/-- One catalog entry handed to `get_current_positions`: the TLE name plus the
outputs of the external sgp4 parsing and propagation for that entry. -/
structure CatalogSat where
  name : String
  sat : SatElems
  res : SgpRes

/-- `get_current_positions` (screening.py, lines 8-21): propagate every catalog
entry, skipping (`except ValueError: continue`) those whose propagation fails.
The positions dict, keyed by name in insertion order, is modelled as the
association list in catalog order. -/
noncomputable def get_current_positions (catalog : List CatalogSat) :
    List (String × PropOut) :=
  catalog.filterMap fun s =>
    match propagate_tle s.sat s.res with
    | Except.ok r => some (s.name, r)
    | Except.error _ => none

/-! ## `src/src/ssa/cdm/cdm_export.py` -/

/-- An `xml.etree.ElementTree` element: tag, attributes, optional text,
children. -/
inductive Xml where
  | el (tag : String) (attrs : List (String × String)) (text : Option String)
      (children : List Xml)

mutual

/-- Flattened document-order list of `(tag, attributes, text)` triples. -/
def Xml.nodeList : Xml → List (String × List (String × String) × Option String)
  | .el tag attrs txt ch => (tag, attrs, txt) :: Xml.nodeListOf ch

/-- `Xml.nodeList` over a list of children. -/
def Xml.nodeListOf : List Xml → List (String × List (String × String) × Option String)
  | [] => []
  | c :: cs => Xml.nodeList c ++ Xml.nodeListOf cs

end

/-- Tags of the document in document order. -/
def Xml.tags (x : Xml) : List String := x.nodeList.map fun n => n.1

/-- Number of elements of the document that carry the given tag. -/
def Xml.countTag (x : Xml) (t : String) : ℕ := x.tags.count t

/-- Text of the first element carrying the given tag, if any. -/
def Xml.textOfTag (x : Xml) (t : String) : Option (Option String) :=
  (x.nodeList.find? fun n => n.1 = t).map fun n => n.2.2

/-- Attribute rendering of `ET.tostring`: ` key="value"` in insertion order. -/
def Xml.renderAttrs : List (String × String) → String
  | [] => ""
  | (k, v) :: rest => " " ++ k ++ "=" ++ "\"" ++ v ++ "\"" ++ Xml.renderAttrs rest

mutual

/-- Serialization of one element exactly as `ET.tostring` writes it: a
self-closing `<tag />` when the element has neither text nor children,
otherwise `<tag>text…children…</tag>`. -/
def Xml.render : Xml → String
  | .el tag attrs txt ch =>
      match txt, ch with
      | none, [] => "<" ++ tag ++ Xml.renderAttrs attrs ++ " />"
      | _, _ =>
          "<" ++ tag ++ Xml.renderAttrs attrs ++ ">" ++ txt.getD ""
            ++ Xml.renderList ch ++ "</" ++ tag ++ ">"

/-- `Xml.render` over a list of children. -/
def Xml.renderList : List Xml → String
  | [] => ""
  | c :: cs => Xml.render c ++ Xml.renderList cs

end

/-- Position dict `{x, y, z}` of an event object state (km). -/
structure QPos where
  x : ℚ
  y : ℚ
  z : ℚ

/-- Velocity dict `{vx, vy, vz}` of an event object state (km/s). -/
structure QVel where
  vx : ℚ
  vy : ℚ
  vz : ℚ

/-- One `object1`/`object2` entry of an event dict as read by
`export_cdm_xml`. -/
structure CdmObject where
  object_id : String
  source : Option String
  pos : QPos
  vel : QVel

/-- An event dict as read by `export_cdm_xml`.  The numeric fields are CPython
floats, i.e. dyadic rationals, modelled by `ℚ`; `created_at` and `tca_utc` are
present on every event the routes module stores, so the `datetime.utcnow()`
and `"UNKNOWN"` fallbacks of `event.get` are not taken. -/
structure CdmEvent where
  event_id : String
  created_at : String
  tca_utc : String
  miss_distance_km : ℚ
  rel_speed_kms : ℚ
  pc : ℚ
  risk : String
  object1 : CdmObject
  object2 : CdmObject

/-- Modelled from the runtime: CPython `str()` on a float value, which the
serializer's `_el` helper applies to every numeric field.  For float values
with an exact decimal expansion of at most 17 fractional digits and magnitude
inside the positional-notation range — every numeric value used in this
development — `str` prints exactly that shortest decimal expansion, with at
least one fractional digit (`str(1.0) = "1.0"`, `str(0.5) = "0.5"`).  The
minimal number `k` of fractional digits is the least `k` with `den ∣ 10^k`,
and the digit string comes from the integer `|q|·10^k = |num|·10^k/den`, all
in integer arithmetic so that concrete instances evaluate.  What the theorems
chiefly use is that one and the same conversion is applied to every numeric
field. -/
def pyFloatStr (q : ℚ) : String :=
  let sign := if q.num < 0 then "-" else ""
  let n := q.num.natAbs
  match (List.range 18).find? (fun k => q.den ∣ 10 ^ k) with
  | none => sign ++ toString q
  | some 0 => sign ++ toString n ++ ".0"
  | some k =>
      let m := n * 10 ^ k / q.den
      let frs := toString (m % 10 ^ k)
      let frsPad :=
        if frs.length < k then String.mk (List.replicate (k - frs.length) '0') ++ frs
        else frs
      sign ++ toString (m / 10 ^ k) ++ "." ++ frsPad

/-- The `_el(parent, tag, text)` helper for a childless, attribute-free
element. -/
def leafEl (tag text : String) : Xml := Xml.el tag [] (some text) []

/-- `export_cdm_xml` (cdm_export.py, lines 11-55), up to the final
`ET.tostring`: the element tree it builds, in the source's construction
order. -/
def export_cdm_xml (ev : CdmEvent) : Xml :=
  Xml.el "CDM" [("xmlns", "urn:ccsds:schema:ndm-xml")] none
    [ Xml.el "header" [] none
        [ leafEl "CREATION_DATE" ev.created_at,
          leafEl "ORIGINATOR" "KOSHA_TRACK" ],
      Xml.el "body" [] none
        [ Xml.el "metadata" [] none
            [ leafEl "EVENT_ID" ev.event_id,
              leafEl "TCA" ev.tca_utc,
              leafEl "MISS_DISTANCE_KM" (pyFloatStr ev.miss_distance_km),
              leafEl "REL_SPEED_KMS" (pyFloatStr ev.rel_speed_kms),
              leafEl "COLLISION_PROBABILITY" (pyFloatStr ev.pc),
              leafEl "RISK_LEVEL" ev.risk ],
          Xml.el "object" [("id", "OBJECT1")] none
            [ leafEl "OBJECT_ID" ev.object1.object_id,
              leafEl "SOURCE" (ev.object1.source.getD "UNKNOWN"),
              Xml.el "stateVector" [] none
                [ leafEl "X_KM" (pyFloatStr ev.object1.pos.x),
                  leafEl "Y_KM" (pyFloatStr ev.object1.pos.y),
                  leafEl "Z_KM" (pyFloatStr ev.object1.pos.z),
                  leafEl "VX_KMS" (pyFloatStr ev.object1.vel.vx),
                  leafEl "VY_KMS" (pyFloatStr ev.object1.vel.vy),
                  leafEl "VZ_KMS" (pyFloatStr ev.object1.vel.vz) ] ],
          Xml.el "object" [("id", "OBJECT2")] none
            [ leafEl "OBJECT_ID" ev.object2.object_id,
              leafEl "SOURCE" (ev.object2.source.getD "UNKNOWN"),
              Xml.el "stateVector" [] none
                [ leafEl "X_KM" (pyFloatStr ev.object2.pos.x),
                  leafEl "Y_KM" (pyFloatStr ev.object2.pos.y),
                  leafEl "Z_KM" (pyFloatStr ev.object2.pos.z),
                  leafEl "VX_KMS" (pyFloatStr ev.object2.vel.vx),
                  leafEl "VY_KMS" (pyFloatStr ev.object2.vel.vy),
                  leafEl "VZ_KMS" (pyFloatStr ev.object2.vel.vz) ] ] ] ]

/-- The byte sequence (UTF-8 string) returned by `export_cdm_xml`: the XML
declaration that `ET.tostring(root, encoding="utf-8")` prepends, followed by
the serialized tree. -/
def export_cdm_xml_string (ev : CdmEvent) : String :=
  "<?xml version=\x271.0\x27 encoding=\x27utf-8\x27?>\n" ++ (export_cdm_xml ev).render

/-! ## Helper lemmas for the Pc estimator -/

/-- The isotropic sigma (km) that `collision_probability` derives from the two
covariances: `sqrt(max(trace(P_pos)/3, 1e-12))`. -/
noncomputable def combinedSigmaKm (cov1 cov2 : Matrix (Fin 6) (Fin 6) ℝ) : ℝ :=
  Real.sqrt (max ((posBlock cov1 + posBlock cov2).trace / 3) 1e-12)

lemma collision_probability_pc_eq (hbr d : ℝ) (cov1 cov2 : Matrix (Fin 6) (Fin 6) ℝ) :
    (collision_probability hbr d cov1 cov2).pc =
      min 1 (Real.exp (-(d * d) / (2 * combinedSigmaKm cov1 cov2 * combinedSigmaKm cov1 cov2)) *
        min 1 ((hbr / 1000 / max (combinedSigmaKm cov1 cov2) 1e-9) ^ 2)) := rfl

lemma combinedSigmaKm_ge (cov1 cov2 : Matrix (Fin 6) (Fin 6) ℝ) :
    1e-6 ≤ combinedSigmaKm cov1 cov2 := by
  unfold combinedSigmaKm
  have h1 : (1e-6 : ℝ) = Real.sqrt 1e-12 := by
    rw [show (1e-12 : ℝ) = (1e-6) ^ 2 by norm_num, Real.sqrt_sq (by norm_num)]
  rw [h1]
  exact Real.sqrt_le_sqrt (le_max_right _ _)

lemma combinedSigmaKm_pos (cov1 cov2 : Matrix (Fin 6) (Fin 6) ℝ) :
    0 < combinedSigmaKm cov1 cov2 :=
  lt_of_lt_of_le (by norm_num) (combinedSigmaKm_ge cov1 cov2)

lemma max_combinedSigmaKm (cov1 cov2 : Matrix (Fin 6) (Fin 6) ℝ) :
    max (combinedSigmaKm cov1 cov2) 1e-9 = combinedSigmaKm cov1 cov2 :=
  max_eq_left (le_trans (by norm_num) (combinedSigmaKm_ge cov1 cov2))

/-- Modelled from the spec wording of claim C3 (§4.7 of the specification):
`σ = √(trace(P_pos)/3)` with floor `10⁻⁶ m`, `B = exp(−d²/(2σ²))`,
`S = min(1, (R_hbr/σ)²)`, `Pc = clamp(B·S, 0, 1)`, all quantities in meters.
This is the comparison target for claim C3, not a function of the source. -/
noncomputable def pc_formula_claimed (hbr_m d_m : ℝ)
    (Ppos_m : Matrix (Fin 3) (Fin 3) ℝ) : ℝ :=
  max 0 (min 1
    (Real.exp (-(d_m ^ 2) / (2 * max (Real.sqrt (Ppos_m.trace / 3)) 1e-6 ^ 2)) *
      min 1 ((hbr_m / max (Real.sqrt (Ppos_m.trace / 3)) 1e-6) ^ 2)))

/-- The claim-C3 formula with the floor the code actually implements:
`10⁻⁶ km = 10⁻³ m` (the code floors `σ²` at `10⁻¹² km²`), everything else as
in `pc_formula_claimed`. -/
noncomputable def pc_formula_amended (hbr_m d_m : ℝ)
    (Ppos_m : Matrix (Fin 3) (Fin 3) ℝ) : ℝ :=
  max 0 (min 1
    (Real.exp (-(d_m ^ 2) / (2 * max (Real.sqrt (Ppos_m.trace / 3)) 1e-3 ^ 2)) *
      min 1 ((hbr_m / max (Real.sqrt (Ppos_m.trace / 3)) 1e-3) ^ 2)))


/-- C3 (counterexample): at zero covariances, miss distance `10⁻⁶ km` and the
default 10 m hard-body radius, the Pc computed by the code is `exp(−1/2)`
(the code's sigma floor is `10⁻⁶ km`), while the claimed formula with its
sigma floor of `10⁻⁶ m` gives `exp(−500000)` on the same inputs expressed in
meters: the floor stated by the claim is not the one the code applies. -/
theorem collision_probability_floor_counterexample :
    (collision_probability 10 1e-6 0 0).pc ≠ pc_formula_claimed 10 1e-3 0 := by
  have htr : (posBlock (0 : Matrix (Fin 6) (Fin 6) ℝ) + posBlock 0).trace = 0 := by
    simp [posBlock]
  have hσ : combinedSigmaKm 0 0 = 1e-6 := by
    unfold combinedSigmaKm
    rw [htr]
    rw [show max ((0:ℝ)/3) 1e-12 = 1e-12 by norm_num]
    rw [show (1e-12:ℝ) = (1e-6)^2 by norm_num, Real.sqrt_sq (by norm_num)]
  have hl : (collision_probability 10 1e-6 0 0).pc = Real.exp (-(1/2)) := by
    rw [collision_probability_pc_eq, hσ]
    rw [show max (1e-6:ℝ) 1e-9 = 1e-6 by norm_num]
    rw [show (-((1e-6:ℝ) * 1e-6) / (2 * 1e-6 * 1e-6) : ℝ) = -(1/2) by norm_num]
    rw [show (((10:ℝ) / 1000 / 1e-6) ^ 2 : ℝ) = 1e8 by norm_num]
    rw [show min (1:ℝ) 1e8 = 1 by norm_num]
    rw [mul_one]
    exact min_eq_right (Real.exp_le_one_iff.mpr (by norm_num))
  have hr : pc_formula_claimed 10 1e-3 0 = Real.exp (-(500000)) := by
    unfold pc_formula_claimed
    rw [Matrix.trace_zero]
    rw [show ((0:ℝ)/3) = 0 by norm_num, Real.sqrt_zero]
    rw [show max (0:ℝ) 1e-6 = 1e-6 by norm_num]
    rw [show (-((1e-3:ℝ) ^ 2) / (2 * (1e-6:ℝ) ^ 2) : ℝ) = -(500000) by norm_num]
    rw [show (((10:ℝ) / 1e-6) ^ 2 : ℝ) = 1e14 by norm_num]
    rw [show min (1:ℝ) 1e14 = 1 by norm_num]
    rw [mul_one]
    rw [min_eq_right (Real.exp_le_one_iff.mpr (by norm_num))]
    exact max_eq_right (le_of_lt (Real.exp_pos _))
  rw [hl, hr]
  intro h
  have h2 := Real.exp_eq_exp.mp h
  norm_num at h2

/-- C3 (amended): for every miss distance, hard-body radius and pair of 6×6
covariances, the collision-probability operation returns
`Pc = clamp(B·S, 0, 1)` with `B = exp(−d²/(2σ²))`, `S = min(1, (R_hbr/σ)²)`
and `σ = √(trace(P_pos)/3)` floored at `10⁻⁶ km` (i.e. `10⁻³ m`; the code
works in km and floors `σ²` at `10⁻¹² km²`), where `P_pos` is the sum of the
two 3×3 position covariance blocks.  Stated as the equality of the code's Pc
with the amended formula evaluated on the same inputs expressed in meters. -/
theorem collision_probability_matches_amended (hbr_m d_km : ℝ)
    (cov1 cov2 : Matrix (Fin 6) (Fin 6) ℝ) :
    (collision_probability hbr_m d_km cov1 cov2).pc
      = pc_formula_amended hbr_m (1000 * d_km)
          ((1000000 : ℝ) • (posBlock cov1 + posBlock cov2)) := by
  rw [collision_probability_pc_eq, max_combinedSigmaKm]
  unfold pc_formula_amended
  rw [Matrix.trace_smul, smul_eq_mul]
  set σ := combinedSigmaKm cov1 cov2 with hσdef
  have hσpos : 0 < σ := combinedSigmaKm_pos cov1 cov2
  have hσalt : σ = max (Real.sqrt ((posBlock cov1 + posBlock cov2).trace / 3)) 1e-6 := by
    rw [hσdef]
    unfold combinedSigmaKm
    rw [Monotone.map_max (fun _ _ h => Real.sqrt_le_sqrt h)]
    rw [show Real.sqrt 1e-12 = 1e-6 by
      rw [show (1e-12:ℝ) = (1e-6)^2 by norm_num, Real.sqrt_sq (by norm_num)]]
  have hmax : max (Real.sqrt (1000000 * (posBlock cov1 + posBlock cov2).trace / 3)) 1e-3
      = 1000 * σ := by
    rw [show (1000000 : ℝ) * (posBlock cov1 + posBlock cov2).trace / 3
        = 1000000 * ((posBlock cov1 + posBlock cov2).trace / 3) by ring]
    rw [Real.sqrt_mul (by norm_num) _]
    rw [show Real.sqrt 1000000 = 1000 by
      rw [show (1000000:ℝ) = 1000^2 by norm_num, Real.sqrt_sq (by norm_num)]]
    rw [hσalt, mul_max_of_nonneg _ _ (by norm_num : (0:ℝ) ≤ 1000)]
    norm_num
  rw [hmax]
  have he : -((1000 * d_km) ^ 2) / (2 * (1000 * σ) ^ 2) = -(d_km * d_km) / (2 * σ * σ) := by
    have hne : σ ≠ 0 := ne_of_gt hσpos
    field_simp
    ring
  have hs : hbr_m / (1000 * σ) = hbr_m / 1000 / σ := by
    rw [div_div]
  rw [he, hs]
  have hnn : 0 ≤ min 1 (Real.exp (-(d_km * d_km) / (2 * σ * σ)) *
      min 1 ((hbr_m / 1000 / σ) ^ 2)) :=
    le_min zero_le_one (mul_nonneg (Real.exp_pos _).le (le_min zero_le_one (sq_nonneg _)))
  exact (max_eq_right hnn).symm

/-- C8: for fixed covariances (hence fixed sigma) and fixed hard-body radius
the Pc returned by `collision_probability` is non-increasing in the miss
distance `d ≥ 0`, and for fixed miss distance and covariances it is
non-decreasing in the hard-body radius. -/
theorem collision_probability_monotone (cov1 cov2 : Matrix (Fin 6) (Fin 6) ℝ)
    (hbr d d1 d2 r1 r2 : ℝ)
    (hd1 : 0 ≤ d1) (hd12 : d1 ≤ d2) (hr1 : 0 ≤ r1) (hr12 : r1 ≤ r2) :
    (collision_probability hbr d2 cov1 cov2).pc ≤ (collision_probability hbr d1 cov1 cov2).pc
    ∧ (collision_probability r1 d cov1 cov2).pc ≤ (collision_probability r2 d cov1 cov2).pc := by
  rw [collision_probability_pc_eq, collision_probability_pc_eq,
    collision_probability_pc_eq, collision_probability_pc_eq]
  set σ := combinedSigmaKm cov1 cov2 with hσdef
  have hσpos : 0 < σ := combinedSigmaKm_pos cov1 cov2
  constructor
  · apply min_le_min le_rfl
    apply mul_le_mul_of_nonneg_right
    · apply Real.exp_le_exp.mpr
      exact div_le_div_of_nonneg_right (neg_le_neg (mul_self_le_mul_self hd1 hd12))
        (by positivity)
    · exact le_min zero_le_one (sq_nonneg _)
  · apply min_le_min le_rfl
    apply mul_le_mul_of_nonneg_left
    · apply min_le_min le_rfl
      apply pow_le_pow_left₀
      · exact div_nonneg (div_nonneg hr1 (by norm_num))
          (le_of_lt (lt_of_lt_of_le hσpos (le_max_left _ _)))
      · exact div_le_div_of_nonneg_right (div_le_div_of_nonneg_right hr12 (by norm_num))
          (le_of_lt (lt_of_lt_of_le hσpos (le_max_left _ _)))
    · exact (Real.exp_pos _).le

/-- Witness for `collision_probability_monotone`: both monotonicity bounds at
zero covariances, hard-body radii 1 m and 2 m, miss distances 1 km and 2 km. -/
theorem collision_probability_monotone_witness :
    (collision_probability 10 2 0 0).pc ≤ (collision_probability 10 1 0 0).pc
    ∧ (collision_probability 1 1 0 0).pc ≤ (collision_probability 2 1 0 0).pc :=
  collision_probability_monotone 0 0 10 1 1 2 1 2 (by norm_num) (by norm_num)
    (by norm_num) (by norm_num)

lemma string_append_left_cancel {s a b : String} (h : s ++ a = s ++ b) : a = b := by
  have h2 := congrArg String.data h
  simp only [String.data_append] at h2
  exact String.ext (List.append_cancel_left h2)

/-- C1 (amended): the event id constructed by `conjunction_assess` is
`"CDM-"` followed by the first 12 characters of the run's freshly generated
`uuid4().hex`, upper-cased; it does not depend on any assessment input, and
the event ids of two runs coincide exactly when the upper-cased 12-character
UUID prefixes of the two runs coincide — so identical assessment inputs do
NOT guarantee identical event ids. -/
theorem conjunction_assess_event_id (req req' : AssessRequest) (s1 s2 s1' s2' : CaState)
    (u u' now now' : String) :
    (conjunction_assess req s1 s2 u now).event_id
        = (conjunction_assess req' s1' s2' u' now').event_id
      ↔ (u.data.take 12).map Char.toUpper = (u'.data.take 12).map Char.toUpper := by
  show eventIdOf u = eventIdOf u' ↔ _
  unfold eventIdOf
  constructor
  · intro h
    have h2 := string_append_left_cancel h
    exact congrArg String.data h2
  · intro h; rw [h]

/-- C1 (counterexample): two `conjunction_assess` runs on identical assessment
inputs but different draws of the random UUID produce different event ids, and
the produced event id has 16 characters — it is not a SHA-256 digest truncated
to 12 hex characters (which would make equal-input ids equal and 12 characters
long). -/
theorem conjunction_assess_event_id_counterexample :
    (conjunction_assess ⟨"SAT-A", "SAT-B", 3600, 10, 0.1, 0.001, 10⟩
        ⟨⟨7000, 0, 0⟩, ⟨0, 7.5, 0⟩⟩ ⟨⟨7000, 2, 0⟩, ⟨0, -7.5, 0⟩⟩
        "0123456789abcdef0123456789abcdef" "2026-01-01T00:00:00").event_id
      ≠ (conjunction_assess ⟨"SAT-A", "SAT-B", 3600, 10, 0.1, 0.001, 10⟩
        ⟨⟨7000, 0, 0⟩, ⟨0, 7.5, 0⟩⟩ ⟨⟨7000, 2, 0⟩, ⟨0, -7.5, 0⟩⟩
        "fedcba9876543210fedcba9876543210" "2026-01-01T00:00:00").event_id
    ∧ (conjunction_assess ⟨"SAT-A", "SAT-B", 3600, 10, 0.1, 0.001, 10⟩
        ⟨⟨7000, 0, 0⟩, ⟨0, 7.5, 0⟩⟩ ⟨⟨7000, 2, 0⟩, ⟨0, -7.5, 0⟩⟩
        "0123456789abcdef0123456789abcdef" "2026-01-01T00:00:00").event_id.length ≠ 12 := by
  refine ⟨?_, ?_⟩ <;> decide

/-! ## Positive semidefiniteness of the covariance pipeline (C6) -/

lemma psd_diag_nonneg {n : ℕ} {M : Matrix (Fin n) (Fin n) ℝ} (hM : M.PosSemidef)
    (i : Fin n) : 0 ≤ M i i := by
  have h := hM.2 (Pi.single i 1)
  simpa [Matrix.mulVec_single, Matrix.single_dotProduct] using h

lemma psd_eigenvalue_nonneg {n : ℕ} {M : Matrix (Fin n) (Fin n) ℝ} (hM : M.PosSemidef)
    (μ : ℝ) (v : Fin n → ℝ) (hv : v ≠ 0) (heq : M.mulVec v = μ • v) : 0 ≤ μ := by
  have h := hM.2 v
  rw [heq] at h
  simp only [star_trivial, Matrix.dotProduct_smul, smul_eq_mul] at h
  have hvv : 0 < Matrix.dotProduct v v := by
    have hnn : 0 ≤ Matrix.dotProduct v v := by
      apply Finset.sum_nonneg
      intro i _
      exact mul_self_nonneg _
    rcases lt_or_eq_of_le hnn with h' | h'
    · exact h'
    · exact absurd (Matrix.dotProduct_self_eq_zero.mp h'.symm) hv
  nlinarith

lemma covF_psd_conj {P : Matrix (Fin 6) (Fin 6) ℝ} (hP : P.PosSemidef) (dt : ℝ) :
    (covF dt * P * (covF dt)ᵀ).PosSemidef := by
  rw [← Matrix.conjTranspose_eq_transpose_of_trivial]
  exact hP.mul_mul_conjTranspose_same (covF dt)

lemma covQ_psd (m : CovarianceModel) (dt : ℝ) : (covQ m dt).PosSemidef := by
  unfold covQ
  apply Matrix.PosSemidef.diagonal
  intro i
  have h1 : (0:ℝ) ≤ max dt 1 := le_trans zero_le_one (le_max_right _ _)
  by_cases h : i.val < 3 <;> simp [h] <;> positivity

lemma propagate_psd {P : Matrix (Fin 6) (Fin 6) ℝ} (hP : P.PosSemidef)
    (m : CovarianceModel) (dt : ℝ) : (m.propagate P dt).PosSemidef :=
  (covF_psd_conj hP dt).add (covQ_psd m dt)

lemma posBlock_psd {M : Matrix (Fin 6) (Fin 6) ℝ} (hM : M.PosSemidef) :
    (posBlock M).PosSemidef := hM.submatrix _

lemma routes_covQ_diag_ge (dt : ℝ) (i : Fin 6) :
    (1e-12 : ℝ) ≤ covQ routesCovModel dt i i := by
  unfold covQ routesCovModel
  have h1 : (1:ℝ) ≤ max dt 1 := le_max_right _ _
  by_cases h : i.val < 3 <;> simp [Matrix.diagonal_apply_eq, h] <;> nlinarith

lemma propagate_diag_ge {P : Matrix (Fin 6) (Fin 6) ℝ} (hP : P.PosSemidef)
    (dt : ℝ) (i : Fin 6) : (1e-12 : ℝ) ≤ routesCovModel.propagate P dt i i := by
  unfold CovarianceModel.propagate
  have h1 : 0 ≤ (covF dt * P * (covF dt)ᵀ) i i := psd_diag_nonneg (covF_psd_conj hP dt) i
  have h2 := routes_covQ_diag_ge dt i
  simp only [Matrix.add_apply]
  linarith

lemma psd_symm {n : ℕ} {M : Matrix (Fin n) (Fin n) ℝ} (hM : M.PosSemidef) : Mᵀ = M := by
  rw [← Matrix.conjTranspose_eq_transpose_of_trivial]
  exact hM.isHermitian

/-- C6: for every pair of symmetric positive-semidefinite 6×6 covariances and
every `dt`, after the propagation step `P' = F P Fᵀ + Q` (with the process
noise of the module-level `CovarianceModel()`), and after the combination
`P_rel = P1' + P2'`, the resulting matrix is symmetric, every eigenvalue of
its 3×3 position block is non-negative, and every diagonal entry is at least
`1e-12`. -/
theorem covariance_propagate_combine_psd (P1 P2 : Matrix (Fin 6) (Fin 6) ℝ) (dt : ℝ)
    (h1 : P1.PosSemidef) (h2 : P2.PosSemidef) :
    ((routesCovModel.propagate P1 dt)ᵀ = routesCovModel.propagate P1 dt
      ∧ (∀ (μ : ℝ) (v : Fin 3 → ℝ), v ≠ 0 →
          (posBlock (routesCovModel.propagate P1 dt)).mulVec v = μ • v → 0 ≤ μ)
      ∧ ∀ i : Fin 6, (1e-12 : ℝ) ≤ routesCovModel.propagate P1 dt i i)
    ∧ ((routesCovModel.propagate P1 dt + routesCovModel.propagate P2 dt)ᵀ
          = routesCovModel.propagate P1 dt + routesCovModel.propagate P2 dt
      ∧ (∀ (μ : ℝ) (v : Fin 3 → ℝ), v ≠ 0 →
          (posBlock (routesCovModel.propagate P1 dt + routesCovModel.propagate P2 dt)).mulVec v
            = μ • v → 0 ≤ μ)
      ∧ ∀ i : Fin 6, (1e-12 : ℝ)
          ≤ (routesCovModel.propagate P1 dt + routesCovModel.propagate P2 dt) i i) := by
  have hp1 := propagate_psd h1 routesCovModel dt
  have hp2 := propagate_psd h2 routesCovModel dt
  have hrel := hp1.add hp2
  refine ⟨⟨psd_symm hp1, ?_, propagate_diag_ge h1 dt⟩, psd_symm hrel, ?_, ?_⟩
  · exact fun μ v hv heq => psd_eigenvalue_nonneg (posBlock_psd hp1) μ v hv heq
  · exact fun μ v hv heq => psd_eigenvalue_nonneg (posBlock_psd hrel) μ v hv heq
  · intro i
    have ha := propagate_diag_ge h1 dt i
    have hb := propagate_diag_ge h2 dt i
    simp only [Matrix.add_apply]
    linarith

/-- Witness for `covariance_propagate_combine_psd`: the zero covariance (which
is symmetric PSD) propagated over `dt = 0`. -/
theorem covariance_propagate_combine_psd_witness :
    (routesCovModel.propagate 0 0)ᵀ = routesCovModel.propagate 0 0
    ∧ ∀ i : Fin 6, (1e-12 : ℝ)
        ≤ (routesCovModel.propagate 0 0 + routesCovModel.propagate 0 0) i i :=
  ⟨(covariance_propagate_combine_psd 0 0 0 .zero .zero).1.1,
   (covariance_propagate_combine_psd 0 0 0 .zero .zero).2.2.2⟩

lemma norm_add_smul_sq (a u : V3) (c : ℝ) :
    ((a + c • u).norm) ^ 2 = a.dot a + 2 * c * (a.dot u) + c ^ 2 * (u.dot u) := by
  rw [V3.norm_sq]
  simp only [V3.add_def, V3.smul_def, V3.dot]
  ring

/-- C5 (amended): in the stage-1 short-arc filter, when `|Δv|² < 10⁻⁸` the
pair gets `t* = 0` and the current separation `|Δr|` as miss distance; when
`|Δv|² ≥ 10⁻⁸` the analytic time of closest approach used is
`t* = −(Δr·Δv)/|Δv|²` WITHOUT any clamping to `[0, H]` (the pipeline instead
discards pairs whose raw `t*` falls outside `(0, H)`), and the returned miss
distance `|Δr + t*·Δv|` is the global minimum of the straight-line separation
over all real times — not merely over `[0, H]`. -/
theorem short_arc_tca_formula (r1 v1 r2 v2 : V3) :
    ((v1 - v2).dot (v1 - v2) < 1e-8 →
      short_arc_tca r1 v1 r2 v2 = (0, (r1 - r2).norm))
    ∧ (1e-8 ≤ (v1 - v2).dot (v1 - v2) →
        (short_arc_tca r1 v1 r2 v2).1
            = -((r1 - r2).dot (v1 - v2)) / (v1 - v2).dot (v1 - v2)
        ∧ ∀ t : ℝ, (short_arc_tca r1 v1 r2 v2).2
            ≤ ((r1 - r2) + t • (v1 - v2)).norm) := by
  constructor
  · intro h
    unfold short_arc_tca
    rw [if_pos h]
  · intro hge
    have hnotlt : ¬((v1 - v2).dot (v1 - v2) < 1e-8) := not_lt.mpr hge
    have hA : (0:ℝ) < (v1 - v2).dot (v1 - v2) := lt_of_lt_of_le (by norm_num) hge
    set a := r1 - r2 with hadef
    set u := v1 - v2 with hudef
    set s := a.dot u with hsdef
    set A := u.dot u with hAdef
    have hfst : (short_arc_tca r1 v1 r2 v2).1 = -s / A := by
      unfold short_arc_tca
      rw [if_neg hnotlt]
    have hsnd : (short_arc_tca r1 v1 r2 v2).2 = (a + (-s / A) • u).norm := by
      unfold short_arc_tca
      rw [if_neg hnotlt]
    refine ⟨hfst, ?_⟩
    intro t
    rw [hsnd]
    apply le_of_pow_le_pow_left₀ two_ne_zero (V3.norm_nonneg _)
    rw [norm_add_smul_sq, norm_add_smul_sq]
    have hdiv : -(s ^ 2) / A ≤ 2 * t * s + t ^ 2 * A := by
      rw [div_le_iff₀ hA]
      nlinarith [sq_nonneg (A * t + s)]
    have hexp : 2 * (-s / A) * s + (-s / A) ^ 2 * A = -(s ^ 2) / A := by
      field_simp
      ring
    rw [← hsdef, ← hAdef]
    have hx : 2 * (-s / A) * s + (-s / A) ^ 2 * A ≤ 2 * t * s + t ^ 2 * A := by
      rw [hexp]
      exact hdiv
    linarith

/-- Witness for `short_arc_tca_formula`: a receding pair with `|Δv|² = 100`,
whose stage-1 miss distance is bounded by the separation at `t = 5`. -/
theorem short_arc_tca_formula_witness :
    (short_arc_tca ⟨1000, 0, 0⟩ ⟨10, 0, 0⟩ ⟨0, 0, 0⟩ ⟨0, 0, 0⟩).2
      ≤ ((⟨1000, 0, 0⟩ : V3) - ⟨0, 0, 0⟩ + (5 : ℝ) • ((⟨10, 0, 0⟩ : V3) - ⟨0, 0, 0⟩)).norm := by
  have h := (short_arc_tca_formula ⟨1000, 0, 0⟩ ⟨10, 0, 0⟩ ⟨0, 0, 0⟩ ⟨0, 0, 0⟩).2
    (by simp [V3.dot]; norm_num)
  exact h.2 5

/-- C5 (counterexample): for the receding pair `Δr = (1000,0,0)`,
`Δv = (10,0,0)`, the code's stage-1 TCA is `t* = −100`, which differs from its
clamping to `[0, H]` (shown at the pipeline's default `H = 604800` s, where
the clamp yields 0), and the returned miss distance is the separation 0 at
`t* = −100` rather than the separation 1000 at the clamped time 0: the claimed
clamping to `[0, H]` does not happen. -/
theorem short_arc_tca_counterexample :
    (short_arc_tca ⟨1000, 0, 0⟩ ⟨10, 0, 0⟩ ⟨0, 0, 0⟩ ⟨0, 0, 0⟩).1 = -100
    ∧ (short_arc_tca ⟨1000, 0, 0⟩ ⟨10, 0, 0⟩ ⟨0, 0, 0⟩ ⟨0, 0, 0⟩).1
        ≠ max 0 (min (short_arc_tca ⟨1000, 0, 0⟩ ⟨10, 0, 0⟩ ⟨0, 0, 0⟩ ⟨0, 0, 0⟩).1 604800)
    ∧ (short_arc_tca ⟨1000, 0, 0⟩ ⟨10, 0, 0⟩ ⟨0, 0, 0⟩ ⟨0, 0, 0⟩).2 = 0 := by
  have h1 : (short_arc_tca ⟨1000, 0, 0⟩ ⟨10, 0, 0⟩ ⟨0, 0, 0⟩ ⟨0, 0, 0⟩).1 = -100 := by
    unfold short_arc_tca
    rw [if_neg (by simp [V3.dot]; norm_num)]
    simp [V3.dot]
    norm_num
  have h2 : (short_arc_tca ⟨1000, 0, 0⟩ ⟨10, 0, 0⟩ ⟨0, 0, 0⟩ ⟨0, 0, 0⟩).2 = 0 := by
    unfold short_arc_tca
    rw [if_neg (by simp [V3.dot]; norm_num)]
    simp only [V3.sub_def, V3.dot, V3.smul_def, V3.add_def]
    norm_num
    simp [V3.norm]
  refine ⟨h1, ?_, h2⟩
  rw [h1]
  norm_num

lemma validate_orbital_elements_error_iff (sat : SatElems) :
    (∃ e, validate_orbital_elements sat = Except.error e)
      ↔ (sat.ecco < 0 ∨ 1 ≤ sat.ecco ∨ sat.no_kozai ≤ 0 ∨ sat.inclo < 0
          ∨ 180 < sat.inclo) := by
  unfold validate_orbital_elements
  by_cases h1 : ¬(0 ≤ sat.ecco ∧ sat.ecco < 1)
  · rw [if_pos h1]
    constructor
    · intro _
      rcases not_and_or.mp h1 with h | h
      · exact Or.inl (lt_of_not_le h)
      · exact Or.inr (Or.inl (le_of_not_lt h))
    · exact fun _ => ⟨_, rfl⟩
  · rw [if_neg h1]
    push_neg at h1
    by_cases h2 : sat.no_kozai ≤ 0
    · rw [if_pos h2]
      constructor
      · exact fun _ => Or.inr (Or.inr (Or.inl h2))
      · exact fun _ => ⟨_, rfl⟩
    · rw [if_neg h2]
      by_cases h3 : ¬(0 ≤ sat.inclo ∧ sat.inclo ≤ 180)
      · rw [if_pos h3]
        constructor
        · intro _
          rcases not_and_or.mp h3 with h | h
          · exact Or.inr (Or.inr (Or.inr (Or.inl (lt_of_not_le h))))
          · exact Or.inr (Or.inr (Or.inr (Or.inr (lt_of_not_le h))))
        · exact fun _ => ⟨_, rfl⟩
      · rw [if_neg h3]
        push_neg at h3
        simp only [reduceCtorEq, exists_false, false_iff]
        intro hc
        rcases hc with h | h | h | h | h
        · exact absurd h1.1 (not_le.mpr h)
        · exact absurd h1.2 (not_lt.mpr h)
        · exact h2 h
        · exact absurd h3.1 (not_le.mpr h)
        · exact absurd h3.2 (not_le.mpr h)

/-- C9: the analytic propagation of a TLE fails with an error exactly when
the parsed eccentricity is outside `[0,1)`, the mean motion is `≤ 0`, the
inclination is outside `[0°, 180°]`, or the SGP4 routine reports a nonzero
error code; and when screening a catalog, every object whose propagation
succeeds contributes its state to the returned positions while every failing
object is merely skipped (`get_current_positions` is total — a per-object
failure is never fatal to the run). -/
theorem propagate_tle_error_iff_and_screen_skips :
    (∀ (sat : SatElems) (res : SgpRes),
      (∃ e, propagate_tle sat res = Except.error e)
        ↔ (sat.ecco < 0 ∨ 1 ≤ sat.ecco ∨ sat.no_kozai ≤ 0 ∨ sat.inclo < 0
            ∨ 180 < sat.inclo ∨ res.error_code ≠ 0))
    ∧ (∀ (catalog : List CatalogSat) (s : CatalogSat) (r : PropOut), s ∈ catalog →
        propagate_tle s.sat s.res = Except.ok r →
        (s.name, r) ∈ get_current_positions catalog)
    ∧ (∀ (catalog : List CatalogSat) (nm : String) (r : PropOut),
        (nm, r) ∈ get_current_positions catalog →
        ∃ s : CatalogSat, s ∈ catalog ∧ s.name = nm
          ∧ propagate_tle s.sat s.res = Except.ok r) := by
  refine ⟨?_, ?_, ?_⟩
  · intro sat res
    constructor
    · intro ⟨e, he⟩
      rcases hval : validate_orbital_elements sat with ev | flags
      · have hd := (validate_orbital_elements_error_iff sat).mp ⟨ev, hval⟩
        tauto
      · simp only [propagate_tle, hval] at he
        by_cases h4 : res.error_code ≠ 0
        · tauto
        · rw [if_neg h4] at he
          simp at he
    · intro hdisj
      rcases hval : validate_orbital_elements sat with ev | flags
      · exact ⟨ev, by simp only [propagate_tle, hval]⟩
      · have h5 : ¬(sat.ecco < 0 ∨ 1 ≤ sat.ecco ∨ sat.no_kozai ≤ 0 ∨ sat.inclo < 0
            ∨ 180 < sat.inclo) := by
          intro hd
          obtain ⟨e, he⟩ := (validate_orbital_elements_error_iff sat).mpr hd
          rw [hval] at he
          simp at he
        have h4 : res.error_code ≠ 0 := by tauto
        exact ⟨_, by simp only [propagate_tle, hval]; rw [if_pos h4]⟩
  · intro catalog s r hmem hok
    unfold get_current_positions
    apply List.mem_filterMap.mpr
    exact ⟨s, hmem, by rw [hok]⟩
  · intro catalog nm r hmem
    obtain ⟨s, hs, hf⟩ := List.mem_filterMap.mp hmem
    rcases hok : propagate_tle s.sat s.res with e | r2
    · rw [hok] at hf
      simp at hf
    · rw [hok] at hf
      simp only [Option.some.injEq, Prod.mk.injEq] at hf
      exact ⟨s, hs, hf.1, by rw [hok, hf.2]⟩

/-- Witness for `propagate_tle_error_iff_and_screen_skips`: an ISS-like
element set propagates successfully and lands in the screening output. -/
theorem propagate_tle_error_iff_and_screen_skips_witness :
    ("ISS", (⟨⟨6794, 0, 0⟩, ⟨0, 0, 0⟩, ["Nominal orbit"]⟩ : PropOut))
      ∈ get_current_positions
          [⟨"ISS", ⟨763/1000000, 1549/100, 516/10⟩, ⟨0, ⟨6794, 0, 0⟩, ⟨0, 0, 0⟩⟩⟩] := by
  apply propagate_tle_error_iff_and_screen_skips.2.1 _ _ _ (List.mem_singleton.mpr rfl)
  show propagate_tle ⟨763/1000000, 1549/100, 516/10⟩ ⟨0, ⟨6794, 0, 0⟩, ⟨0, 0, 0⟩⟩
      = Except.ok ⟨⟨6794, 0, 0⟩, ⟨0, 0, 0⟩, ["Nominal orbit"]⟩
  have hval : validate_orbital_elements ⟨763/1000000, 1549/100, 516/10⟩ = Except.ok [] := by
    unfold validate_orbital_elements
    rw [if_neg (not_not_intro (by norm_num)), if_neg (by norm_num),
      if_neg (not_not_intro (by norm_num))]
    norm_num
  have hsp : V3.norm ⟨0, 0, 0⟩ = 0 := by simp [V3.norm]
  simp [propagate_tle, hval, hsp]
  norm_num

/-- Straight-line separation of the two sampled states at offset `t`, as
computed inside the loop body of `closest_approach`. -/
noncomputable def caDist (p10 v10 p20 v20 : V3) (t : ℝ) : ℝ :=
  ((p20 + t • v20) - (p10 + t • v10)).norm

lemma caUpdate_none (p10 v10 p20 v20 : V3) (t : ℝ) :
    caUpdate p10 v10 p20 v20 t none
      = some ⟨t, caDist p10 v10 p20 v20 t, (v20 - v10).norm,
          p10 + t • v10, p20 + t • v20⟩ := rfl

lemma caUpdate_some_lt (p10 v10 p20 v20 : V3) (t : ℝ) (b : CaBest)
    (h : caDist p10 v10 p20 v20 t < b.miss_distance_km) :
    caUpdate p10 v10 p20 v20 t (some b)
      = some ⟨t, caDist p10 v10 p20 v20 t, (v20 - v10).norm,
          p10 + t • v10, p20 + t • v20⟩ := by
  unfold caDist at h
  simp only [caUpdate]
  rw [if_pos h]
  unfold caDist
  rfl

lemma caUpdate_some_ge (p10 v10 p20 v20 : V3) (t : ℝ) (b : CaBest)
    (h : ¬(caDist p10 v10 p20 v20 t < b.miss_distance_km)) :
    caUpdate p10 v10 p20 v20 t (some b) = some b := by
  unfold caDist at h
  simp only [caUpdate]
  rw [if_neg h]

lemma caFold_min (p10 v10 p20 v20 : V3) (s : ℝ) :
    ∀ (l : List ℕ) (b : CaBest),
      ∃ b', l.foldl (fun best (k : ℕ) => caUpdate p10 v10 p20 v20 ((k : ℝ) * s) best)
            (some b) = some b'
        ∧ b'.miss_distance_km ≤ b.miss_distance_km
        ∧ (∀ k ∈ l, b'.miss_distance_km ≤ caDist p10 v10 p20 v20 ((k : ℝ) * s))
        ∧ (b' = b ∨ ∃ k ∈ l,
            b'.miss_distance_km = caDist p10 v10 p20 v20 ((k : ℝ) * s)) := by
  intro l
  induction l with
  | nil =>
      intro b
      exact ⟨b, rfl, le_rfl, by simp, Or.inl rfl⟩
  | cons k l ih =>
      intro b
      rw [List.foldl_cons]
      by_cases h : caDist p10 v10 p20 v20 ((k : ℝ) * s) < b.miss_distance_km
      · rw [caUpdate_some_lt p10 v10 p20 v20 _ b h]
        obtain ⟨b', hb', hle, hall, hor⟩ := ih
          ⟨(k : ℝ) * s, caDist p10 v10 p20 v20 ((k : ℝ) * s), (v20 - v10).norm,
            p10 + ((k : ℝ) * s) • v10, p20 + ((k : ℝ) * s) • v20⟩
        refine ⟨b', hb', le_trans hle (le_of_lt h), ?_, ?_⟩
        · intro j hj
          rcases List.mem_cons.mp hj with hj | hj
          · rw [hj]; exact hle
          · exact hall j hj
        · rcases hor with hor | ⟨j, hj, hor⟩
          · exact Or.inr ⟨k, List.mem_cons_self k l, by rw [hor]⟩
          · exact Or.inr ⟨j, List.mem_cons_of_mem k hj, hor⟩
      · rw [caUpdate_some_ge p10 v10 p20 v20 _ b h]
        obtain ⟨b', hb', hle, hall, hor⟩ := ih b
        refine ⟨b', hb', hle, ?_, ?_⟩
        · intro j hj
          rcases List.mem_cons.mp hj with hj | hj
          · rw [hj]; exact le_trans hle (not_lt.mp h)
          · exact hall j hj
        · rcases hor with hor | ⟨j, hj, hor⟩
          · exact Or.inl hor
          · exact Or.inr ⟨j, List.mem_cons_of_mem k hj, hor⟩

/-- C10: for every pair of input states, `window_s ≥ 0` and `step_s > 0`, the
coarse closest-approach search returns the minimum straight-line separation
over the sampled offsets `t = k·step_s ≤ window_s`; in particular, since
`t = 0` is always sampled, the reported miss distance never exceeds the
separation of the two input states at `t = 0`. -/
theorem closest_approach_min (state1 state2 : CaState) (window_s step_s : ℝ)
    (hw : 0 ≤ window_s) (hs : 0 < step_s) :
    ∃ b, closest_approach state1 state2 window_s step_s = some b
      ∧ (∀ k : ℕ, (k : ℝ) * step_s ≤ window_s →
          b.miss_distance_km ≤ caDist state1.position state1.velocity
            state2.position state2.velocity ((k : ℝ) * step_s))
      ∧ (∃ k : ℕ, (k : ℝ) * step_s ≤ window_s
          ∧ b.miss_distance_km = caDist state1.position state1.velocity
              state2.position state2.velocity ((k : ℝ) * step_s))
      ∧ b.miss_distance_km ≤ (state2.position - state1.position).norm := by
  obtain ⟨p10, v10⟩ := state1
  obtain ⟨p20, v20⟩ := state2
  dsimp only
  have hN : caIterCount window_s step_s = (⌊window_s / step_s⌋).toNat + 1 := by
    unfold caIterCount
    rw [if_neg (not_lt.mpr hw)]
  have hfl : (0:ℤ) ≤ ⌊window_s / step_s⌋ :=
    Int.floor_nonneg.mpr (div_nonneg hw (le_of_lt hs))
  have hk_iff : ∀ k : ℕ, ((k : ℝ) * step_s ≤ window_s ↔ k < caIterCount window_s step_s) := by
    intro k
    rw [hN, Nat.lt_succ_iff, Int.le_toNat hfl, Int.le_floor]
    push_cast
    rw [le_div_iff₀ hs]
  have hzero : caDist p10 v10 p20 v20 (((0:ℕ) : ℝ) * step_s) = (p20 - p10).norm := by
    unfold caDist
    have hv : p20 + (((0:ℕ) : ℝ) * step_s) • v20 - (p10 + (((0:ℕ) : ℝ) * step_s) • v10)
        = p20 - p10 := by
      ext <;> simp
    rw [hv]
  unfold closest_approach
  rw [hN, List.range_succ_eq_map, List.foldl_cons, caUpdate_none]
  obtain ⟨b', hb', hle, hall, hor⟩ := caFold_min p10 v10 p20 v20 step_s
    ((List.range ⌊window_s / step_s⌋.toNat).map Nat.succ)
    ⟨((0:ℕ) : ℝ) * step_s, caDist p10 v10 p20 v20 (((0:ℕ) : ℝ) * step_s),
      (v20 - v10).norm, p10 + (((0:ℕ) : ℝ) * step_s) • v10,
      p20 + (((0:ℕ) : ℝ) * step_s) • v20⟩
  refine ⟨b', hb', ?_, ?_, le_trans hle (le_of_eq hzero)⟩
  · intro k hk
    have hkN := (hk_iff k).mp hk
    rw [hN] at hkN
    rcases Nat.eq_zero_or_pos k with hk0 | hkpos
    · subst hk0
      exact le_trans hle (le_of_eq rfl)
    · have hkmem : k ∈ (List.range ⌊window_s / step_s⌋.toNat).map Nat.succ := by
        apply List.mem_map.mpr
        refine ⟨k - 1, List.mem_range.mpr ?_, ?_⟩
        · omega
        · omega
      exact hall k hkmem
  · rcases hor with hor | ⟨k, hk, hor⟩
    · refine ⟨0, ?_, by rw [hor]⟩
      push_cast
      rw [zero_mul]
      exact hw
    · refine ⟨k, ?_, hor⟩
      apply (hk_iff k).mpr
      rw [hN]
      obtain ⟨j, hj, rfl⟩ := List.mem_map.mp hk
      have := List.mem_range.mp hj
      omega

/-- Witness for `closest_approach_min`: a one-hour window with 10 s steps. -/
theorem closest_approach_min_witness :
    ∃ b, closest_approach ⟨⟨7000, 0, 0⟩, ⟨0, 7.5, 0⟩⟩ ⟨⟨7000, 2, 0⟩, ⟨0, -7.5, 0⟩⟩ 3600 10
        = some b
      ∧ b.miss_distance_km ≤ ((⟨7000, 2, 0⟩ : V3) - ⟨7000, 0, 0⟩).norm := by
  obtain ⟨b, hb, h1, h2, hle⟩ := closest_approach_min ⟨⟨7000, 0, 0⟩, ⟨0, 7.5, 0⟩⟩
    ⟨⟨7000, 2, 0⟩, ⟨0, -7.5, 0⟩⟩ 3600 10 (by norm_num) (by norm_num)
  exact ⟨b, hb, hle⟩

/-- Modelled from the spec wording of claim C7: fixed-point decimal notation
with exactly `k` fractional digits (round half up), as the claimed
"fixed 6 decimals" / "fixed 9 decimals" formatting prescribes; the rounded
integer `⌊|q|·10^k + 1/2⌋` is `(2·|num|·10^k + den) / (2·den)` in integer
division.  Comparison target for the claim, not a function of the source. -/
def fixedDecimalFormat (k : ℕ) (q : ℚ) : String :=
  let sign := if q.num < 0 then "-" else ""
  let n := (2 * q.num.natAbs * 10 ^ k + q.den) / (2 * q.den)
  let frs := toString (n % 10 ^ k)
  let frsPad :=
    if frs.length < k then String.mk (List.replicate (k - frs.length) '0') ++ frs
    else frs
  sign ++ toString (n / 10 ^ k) ++ "." ++ frsPad

/-- C7 (counterexample): for an event whose first object has position
`x = 2 km` and velocity `vx = 2 km/s`, the serializer emits the text `"2.0"`
for `X_KM` (Python `str()` of the float), not the claimed fixed-6-decimals
`"2.000000"`, and likewise not fixed-9-decimals for `VX_KMS`: the claimed
numeric formatting is not applied. -/
theorem export_cdm_xml_formatting_counterexample :
    (export_cdm_xml ⟨"CDM-TEST", "2026-01-01T00:00:00", "2026-01-01T00:10:00",
        2, 14, 0, "LOW", ⟨"OBJ-1", none, ⟨2, 0, 0⟩, ⟨2, 0, 0⟩⟩,
        ⟨"OBJ-2", none, ⟨1, 1, 1⟩, ⟨3, 3, 3⟩⟩⟩).textOfTag "X_KM"
      = some (some "2.0")
    ∧ (export_cdm_xml ⟨"CDM-TEST", "2026-01-01T00:00:00", "2026-01-01T00:10:00",
        2, 14, 0, "LOW", ⟨"OBJ-1", none, ⟨2, 0, 0⟩, ⟨2, 0, 0⟩⟩,
        ⟨"OBJ-2", none, ⟨1, 1, 1⟩, ⟨3, 3, 3⟩⟩⟩).textOfTag "X_KM"
      ≠ some (some (fixedDecimalFormat 6 2))
    ∧ (export_cdm_xml ⟨"CDM-TEST", "2026-01-01T00:00:00", "2026-01-01T00:10:00",
        2, 14, 0, "LOW", ⟨"OBJ-1", none, ⟨2, 0, 0⟩, ⟨2, 0, 0⟩⟩,
        ⟨"OBJ-2", none, ⟨1, 1, 1⟩, ⟨3, 3, 3⟩⟩⟩).textOfTag "VX_KMS"
      ≠ some (some (fixedDecimalFormat 9 2)) := by
  refine ⟨?_, ?_, ?_⟩ <;> decide

/-- C7 (amended): for every Event the serializer emits exactly one `CDM`
element per document, the element tags in the fixed document order, no
attributes beyond `xmlns` on the root and `id` on the two object elements,
and every numeric field — positions, velocities and the collision
probability alike — through one and the same conversion, Python `str()`
(no fixed-decimals or scientific formatting); identical Events yield
identical output byte sequences. -/
theorem export_cdm_xml_structure (ev ev' : CdmEvent) :
    (export_cdm_xml ev).countTag "CDM" = 1
    ∧ (export_cdm_xml ev).tags = ["CDM", "header", "CREATION_DATE", "ORIGINATOR",
        "body", "metadata", "EVENT_ID", "TCA", "MISS_DISTANCE_KM", "REL_SPEED_KMS",
        "COLLISION_PROBABILITY", "RISK_LEVEL", "object", "OBJECT_ID", "SOURCE",
        "stateVector", "X_KM", "Y_KM", "Z_KM", "VX_KMS", "VY_KMS", "VZ_KMS",
        "object", "OBJECT_ID", "SOURCE", "stateVector",
        "X_KM", "Y_KM", "Z_KM", "VX_KMS", "VY_KMS", "VZ_KMS"]
    ∧ (export_cdm_xml ev).nodeList.map (fun n => n.2.1)
      = [[("xmlns", "urn:ccsds:schema:ndm-xml")], [], [], [], [], [], [], [], [], [],
         [], [], [("id", "OBJECT1")], [], [], [], [], [], [], [], [], [],
         [("id", "OBJECT2")], [], [], [], [], [], [], [], [], []]
    ∧ (export_cdm_xml ev).textOfTag "X_KM" = some (some (pyFloatStr ev.object1.pos.x))
    ∧ (export_cdm_xml ev).textOfTag "VX_KMS" = some (some (pyFloatStr ev.object1.vel.vx))
    ∧ (export_cdm_xml ev).textOfTag "COLLISION_PROBABILITY" = some (some (pyFloatStr ev.pc))
    ∧ (ev = ev' → export_cdm_xml_string ev = export_cdm_xml_string ev') := by
  refine ⟨rfl, rfl, rfl, rfl, rfl, rfl, fun h => by rw [h]⟩

/-- Witness for `export_cdm_xml_structure` at a concrete event. -/
theorem export_cdm_xml_structure_witness :
    (export_cdm_xml ⟨"CDM-W", "2026-01-02T00:00:00", "2026-01-02T00:10:00",
        2, 7, 0, "LOW", ⟨"OBJ-A", none, ⟨1, 2, 3⟩, ⟨4, 5, 6⟩⟩,
        ⟨"OBJ-B", some "fused", ⟨7, 8, 9⟩, ⟨1, 1, 1⟩⟩⟩).countTag "CDM" = 1
    ∧ export_cdm_xml_string ⟨"CDM-W", "2026-01-02T00:00:00", "2026-01-02T00:10:00",
        2, 7, 0, "LOW", ⟨"OBJ-A", none, ⟨1, 2, 3⟩, ⟨4, 5, 6⟩⟩,
        ⟨"OBJ-B", some "fused", ⟨7, 8, 9⟩, ⟨1, 1, 1⟩⟩⟩
      = export_cdm_xml_string ⟨"CDM-W", "2026-01-02T00:00:00", "2026-01-02T00:10:00",
        2, 7, 0, "LOW", ⟨"OBJ-A", none, ⟨1, 2, 3⟩, ⟨4, 5, 6⟩⟩,
        ⟨"OBJ-B", some "fused", ⟨7, 8, 9⟩, ⟨1, 1, 1⟩⟩⟩ :=
  ⟨(export_cdm_xml_structure ⟨"CDM-W", "2026-01-02T00:00:00", "2026-01-02T00:10:00",
        2, 7, 0, "LOW", ⟨"OBJ-A", none, ⟨1, 2, 3⟩, ⟨4, 5, 6⟩⟩,
        ⟨"OBJ-B", some "fused", ⟨7, 8, 9⟩, ⟨1, 1, 1⟩⟩⟩
      ⟨"CDM-W", "2026-01-02T00:00:00", "2026-01-02T00:10:00",
        2, 7, 0, "LOW", ⟨"OBJ-A", none, ⟨1, 2, 3⟩, ⟨4, 5, 6⟩⟩,
        ⟨"OBJ-B", some "fused", ⟨7, 8, 9⟩, ⟨1, 1, 1⟩⟩⟩).1,
   (export_cdm_xml_structure ⟨"CDM-W", "2026-01-02T00:00:00", "2026-01-02T00:10:00",
        2, 7, 0, "LOW", ⟨"OBJ-A", none, ⟨1, 2, 3⟩, ⟨4, 5, 6⟩⟩,
        ⟨"OBJ-B", some "fused", ⟨7, 8, 9⟩, ⟨1, 1, 1⟩⟩⟩
      ⟨"CDM-W", "2026-01-02T00:00:00", "2026-01-02T00:10:00",
        2, 7, 0, "LOW", ⟨"OBJ-A", none, ⟨1, 2, 3⟩, ⟨4, 5, 6⟩⟩,
        ⟨"OBJ-B", some "fused", ⟨7, 8, 9⟩, ⟨1, 1, 1⟩⟩⟩).2.2.2.2.2.2 rfl⟩

/-- C4 (amended): for every fixed propagator, scalar minimizer, catalog and
configuration, the screener's output is a deterministic pure function of
those inputs, is a permutation of the retained candidate list ordered by
refined miss distance ascending, and ties on miss distance keep the catalog
(candidate-list) order — the stable-sort guarantee of `list.sort` — rather
than being re-broken by `(primary id, secondary id)`. -/
theorem conjunction_pipeline_sorted (propagate_func : PState → ℝ → V3)
    (minimize_scalar : (ℝ → ℝ) → ℝ → ℝ → ℝ × ℝ)
    (primary_state : PState) (catalog_states : List (String × PState))
    (t_span screen_threshold_km risk_threshold_m : ℝ) :
    List.Sorted missLE (conjunction_pipeline propagate_func minimize_scalar
      primary_state catalog_states t_span screen_threshold_km risk_threshold_m)
    ∧ (conjunction_pipeline propagate_func minimize_scalar
        primary_state catalog_states t_span screen_threshold_km risk_threshold_m).Perm
      (pipelineCandidates propagate_func minimize_scalar
        primary_state catalog_states t_span screen_threshold_km risk_threshold_m)
    ∧ ∀ a b : Candidate, missLE a b →
        List.Sublist [a, b] (pipelineCandidates propagate_func minimize_scalar
          primary_state catalog_states t_span screen_threshold_km risk_threshold_m) →
        List.Sublist [a, b] (conjunction_pipeline propagate_func minimize_scalar
          primary_state catalog_states t_span screen_threshold_km risk_threshold_m) :=
  ⟨List.sorted_insertionSort missLE _,
   List.perm_insertionSort missLE _,
   fun _ _ hab hsub => List.pair_sublist_insertionSort hab hsub⟩

/-- Straight-line propagation used to instantiate the pipeline's
`propagate_func` parameter in the concrete screening runs below. -/
noncomputable def linProp : PState → ℝ → V3 := fun s t => s.r + t • s.v

/-- A deterministic stand-in for scipy's bounded scalar minimizer: it returns
the lower bound of the bracket and the objective value there. -/
noncomputable def lowerBoundMin : (ℝ → ℝ) → ℝ → ℝ → ℝ × ℝ := fun f lo _ => (lo, f lo)

/-- Stationary primary object at the origin. -/
noncomputable def c4primary : PState := ⟨⟨0, 0, 0⟩, ⟨0, 0, 0⟩⟩

/-- Two secondaries with mirrored states: both have the identical separation
profile `|10t − 4|` from the primary, hence identical refined miss distances;
their catalog order is the reverse of the lexicographic order of their ids. -/
noncomputable def c4catalog : List (String × PState) :=
  [("OBJ-B", ⟨⟨4, 0, 0⟩, ⟨-10, 0, 0⟩⟩), ("OBJ-A", ⟨⟨-4, 0, 0⟩, ⟨10, 0, 0⟩⟩)]

lemma argminAux_no_update :
    ∀ (l : List ℝ) (i bi : ℕ) (bv : ℝ), (∀ d ∈ l, bv ≤ d) → argminAux l i bi bv = bi := by
  intro l
  induction l with
  | nil => intro i bi bv _; rfl
  | cons d rest ih =>
      intro i bi bv h
      unfold argminAux
      rw [if_neg (not_lt.mpr (h d (List.mem_cons_self d rest)))]
      exact ih (i + 1) bi bv fun x hx => h x (List.mem_cons_of_mem d hx)

lemma argminIdx_head_min (d : ℝ) (rest : List ℝ) (h : ∀ x ∈ rest, d ≤ x) :
    argminIdx (d :: rest) = 0 := by
  unfold argminIdx
  exact argminAux_no_update rest 1 0 d h

lemma linspace_c4 (k : ℕ) :
    (0 : ℝ) + (499 - 0) * (k : ℝ) / (((500 : ℕ) : ℝ) - 1) = (k : ℝ) := by
  push_cast
  rw [show ((500:ℝ) - 1) = 499 by norm_num]
  field_simp

lemma nmd_c4 (sec : PState)
    (hf : ∀ t : ℝ, (linProp c4primary t - linProp sec t).norm = |10 * t - 4|) :
    numerical_min_distance linProp lowerBoundMin c4primary sec 499 500 = (0, 4) := by
  unfold numerical_min_distance lowerBoundMin
  simp only [hf]
  have hmm : (linspace 0 499 500).map (fun t => |10 * t - 4|)
      = |10 * ((0:ℝ) + (499 - 0) * ((0:ℕ) : ℝ) / (((500 : ℕ) : ℝ) - 1)) - 4|
        :: (List.range 499).map (fun j =>
            |10 * ((0:ℝ) + (499 - 0) * ((j + 1 : ℕ) : ℝ) / (((500 : ℕ) : ℝ) - 1)) - 4|) := by
    unfold linspace
    rw [List.map_map, List.range_succ_eq_map, List.map_cons, List.map_map]
    rfl
  have harg : argminIdx ((linspace 0 499 500).map (fun t => |10 * t - 4|)) = 0 := by
    rw [hmm]
    apply argminIdx_head_min
    intro x hx
    obtain ⟨j, _, rfl⟩ := List.mem_map.mp hx
    rw [linspace_c4, linspace_c4]
    push_cast
    rw [show (10:ℝ) * 0 - 4 = -4 by ring, abs_neg, abs_of_nonneg (by norm_num : (0:ℝ) ≤ 4)]
    rw [abs_of_nonneg (by push_cast; nlinarith [Nat.cast_nonneg (α := ℝ) j] : (0:ℝ) ≤ 10 * ((j:ℝ) + 1) - 4)]
    nlinarith [Nat.cast_nonneg (α := ℝ) j]
  have hgetD : (linspace 0 499 500).getD 0 0 = 0 := by
    unfold linspace
    rw [List.range_succ_eq_map, List.map_cons]
    rw [List.getD_cons_zero]
    rw [linspace_c4]
    norm_num
  rw [harg, hgetD]
  have h1 : max (0:ℝ) (0 - 499 / 10) = 0 := by norm_num
  rw [h1]
  rw [show (10:ℝ) * 0 - 4 = -4 by ring, abs_neg, abs_of_nonneg (by norm_num : (0:ℝ) ≤ 4)]

lemma norm_x_only (v : V3) (r : ℝ) (hx : v.x = r) (hy : v.y = 0) (hz : v.z = 0) :
    v.norm = |r| := by
  unfold V3.norm
  rw [hx, hy, hz, show r ^ 2 + 0 ^ 2 + 0 ^ 2 = r ^ 2 by ring, Real.sqrt_sq_eq_abs]

lemma hf_B : ∀ t : ℝ, (linProp c4primary t
    - linProp ⟨⟨4, 0, 0⟩, ⟨-10, 0, 0⟩⟩ t).norm = |10 * t - 4| := by
  intro t
  apply norm_x_only <;> simp [linProp, c4primary] <;> ring

lemma hf_A : ∀ t : ℝ, (linProp c4primary t
    - linProp ⟨⟨-4, 0, 0⟩, ⟨10, 0, 0⟩⟩ t).norm = |10 * t - 4| := by
  intro t
  have h : (10 : ℝ) * t - 4 = -(-(10 * t) + 4) := by ring
  rw [h, abs_neg]
  apply norm_x_only <;> simp [linProp, c4primary] <;> ring

lemma htm_B : short_arc_tca ⟨0, 0, 0⟩ ⟨0, 0, 0⟩ ⟨4, 0, 0⟩ ⟨-10, 0, 0⟩ = (2/5, 0) := by
  unfold short_arc_tca
  rw [if_neg (by simp [V3.dot]; norm_num)]
  rw [Prod.mk.injEq]
  constructor
  · simp [V3.dot]
    norm_num
  · rw [norm_x_only _ 0 ?_ ?_ ?_]
    · exact abs_zero
    · simp [V3.dot]
      norm_num
    · simp [V3.dot]
    · simp [V3.dot]

lemma htm_A : short_arc_tca ⟨0, 0, 0⟩ ⟨0, 0, 0⟩ ⟨-4, 0, 0⟩ ⟨10, 0, 0⟩ = (2/5, 0) := by
  unfold short_arc_tca
  rw [if_neg (by simp [V3.dot]; norm_num)]
  rw [Prod.mk.injEq]
  constructor
  · simp [V3.dot]
    norm_num
  · rw [norm_x_only _ 0 ?_ ?_ ?_]
    · exact abs_zero
    · simp [V3.dot]
      norm_num
    · simp [V3.dot]
    · simp [V3.dot]

lemma pipelineCandidates_c4 :
    pipelineCandidates linProp lowerBoundMin c4primary c4catalog 499 50 1000
      = [⟨"OBJ-B", 0, 4, 10⟩, ⟨"OBJ-A", 0, 4, 10⟩] := by
  unfold pipelineCandidates c4catalog
  rw [List.filterMap_cons_some, List.filterMap_cons_some, List.filterMap_nil]
  · dsimp only
    rw [show (c4primary : PState).r = ⟨0,0,0⟩ from rfl, show (c4primary : PState).v = ⟨0,0,0⟩ from rfl]
    rw [htm_A]
    rw [if_pos ⟨by norm_num, by norm_num, by norm_num⟩]
    rw [nmd_c4 _ hf_A]
    rw [if_pos (by norm_num)]
    rw [Option.some.injEq]
    rw [show (((0:ℝ), (4:ℝ))).1 = 0 from rfl, show (((0:ℝ), (4:ℝ))).2 = 4 from rfl]
    rw [show ((⟨0,0,0⟩ : V3) - ⟨10,0,0⟩).norm = |(-10 : ℝ)| from
      norm_x_only _ _ (by simp) (by simp) (by simp)]
    rw [abs_neg, abs_of_nonneg (by norm_num : (0:ℝ) ≤ 10)]
  · dsimp only
    rw [show (c4primary : PState).r = ⟨0,0,0⟩ from rfl, show (c4primary : PState).v = ⟨0,0,0⟩ from rfl]
    rw [htm_B]
    rw [if_pos ⟨by norm_num, by norm_num, by norm_num⟩]
    rw [nmd_c4 _ hf_B]
    rw [if_pos (by norm_num)]
    rw [Option.some.injEq]
    rw [show (((0:ℝ), (4:ℝ))).1 = 0 from rfl, show (((0:ℝ), (4:ℝ))).2 = 4 from rfl]
    rw [show ((⟨0,0,0⟩ : V3) - ⟨-10,0,0⟩).norm = |(10 : ℝ)| from
      norm_x_only _ _ (by simp) (by simp) (by simp)]
    rw [abs_of_nonneg (by norm_num : (0:ℝ) ≤ 10)]

/-- C4 (counterexample): a catalog whose two secondaries tie exactly on the
refined miss distance (4 m each), listed in the order `OBJ-B`, `OBJ-A`.  The
pipeline returns them in catalog order `["OBJ-B", "OBJ-A"]`, not in the
`(primary id, secondary id)`-lexicographic order `["OBJ-A", "OBJ-B"]` the
claim requires for ties. -/
theorem conjunction_pipeline_tiebreak_counterexample :
    (conjunction_pipeline linProp lowerBoundMin c4primary c4catalog 499 50 1000).map
        (fun c => c.object_id) = ["OBJ-B", "OBJ-A"]
    ∧ (conjunction_pipeline linProp lowerBoundMin c4primary c4catalog 499 50 1000).map
        (fun c => c.miss_distance_m) = [4, 4]
    ∧ ["OBJ-B", "OBJ-A"] ≠ ["OBJ-A", "OBJ-B"] := by
  have hpipe : conjunction_pipeline linProp lowerBoundMin c4primary c4catalog 499 50 1000
      = [⟨"OBJ-B", 0, 4, 10⟩, ⟨"OBJ-A", 0, 4, 10⟩] := by
    unfold conjunction_pipeline
    rw [pipelineCandidates_c4]
    have h1 : ∀ b ∈ [(⟨"OBJ-A", 0, 4, 10⟩ : Candidate)], missLE ⟨"OBJ-B", 0, 4, 10⟩ b := by
      intro b hb
      rw [List.mem_singleton] at hb
      rw [hb]
      exact le_refl (4 : ℝ)
    rw [List.insertionSort_cons missLE h1]
    rw [List.Sorted.insertionSort_eq (List.sorted_singleton _)]
  refine ⟨?_, ?_, ?_⟩
  · rw [hpipe]; rfl
  · rw [hpipe]; rfl
  · decide

/-- Witness for `conjunction_pipeline_sorted`: the tied pair of the concrete
screening run stays in candidate order in the output. -/
theorem conjunction_pipeline_sorted_witness :
    List.Sublist [⟨"OBJ-B", 0, 4, 10⟩, (⟨"OBJ-A", 0, 4, 10⟩ : Candidate)]
      (conjunction_pipeline linProp lowerBoundMin c4primary c4catalog 499 50 1000) :=
  (conjunction_pipeline_sorted linProp lowerBoundMin c4primary c4catalog 499 50 1000).2.2
    ⟨"OBJ-B", 0, 4, 10⟩ ⟨"OBJ-A", 0, 4, 10⟩ (le_refl (4 : ℝ))
    (by rw [pipelineCandidates_c4])

@[simp] lemma V3.neg_def (a : V3) : -a = ⟨-a.x, -a.y, -a.z⟩ := rfl

lemma V3.norm_neg (a : V3) : (-a).norm = a.norm := by
  unfold V3.norm
  have h : (-a).x ^ 2 + (-a).y ^ 2 + (-a).z ^ 2 = a.x ^ 2 + a.y ^ 2 + a.z ^ 2 := by
    simp
  rw [h]

lemma V3.norm_sub_comm (a b : V3) : (a - b).norm = (b - a).norm := by
  have h : a - b = -(b - a) := by ext <;> simp
  rw [h, V3.norm_neg]

lemma norm_add_ge_sub (x y : V3) : x.norm - y.norm ≤ (x + y).norm := by
  have h : x + y - y = x := by ext <;> simp
  have h4 : x + y - y = (x + y) + -y := by ext <;> simp
  have h3 := V3.norm_add_le (x + y) (-y)
  rw [← h4, h, V3.norm_neg] at h3
  linarith

lemma sdiv_eq_smul (a : V3) (c : ℝ) : a.sdiv c = c⁻¹ • a := by
  unfold V3.sdiv
  ext <;> simp [div_eq_inv_mul]

lemma sub_sdiv (a b : V3) (c : ℝ) : (a - b).sdiv c = a.sdiv c - b.sdiv c := by
  unfold V3.sdiv
  ext <;> simp <;> ring

lemma add_smul_v3 (c1 c2 : ℝ) (v : V3) : (c1 + c2) • v = c1 • v + c2 • v := by
  ext <;> simp <;> ring

lemma zero_add_v3 (v : V3) : (0 : V3) + v = v := by
  ext <;> simp

lemma sunDistAu_le (jd : ℝ) : sunDistAu jd ≤ 1.01699 := by
  unfold sunDistAu
  have h1 := Real.neg_one_le_cos (sunG jd)
  have h3 := Real.neg_one_le_cos (2 * sunG jd)
  nlinarith

lemma sunDistAu_ge (jd : ℝ) : 0.98329 ≤ sunDistAu jd := by
  unfold sunDistAu
  have h2 := Real.cos_le_one (sunG jd)
  have h4 := Real.cos_le_one (2 * sunG jd)
  nlinarith

/-- The norm of the sun position is exactly `AU · dist_au`. -/
lemma sun_norm (jd : ℝ) : (get_sun_position jd).norm = AU * sunDistAu jd := by
  unfold get_sun_position
  rw [V3.norm_smul]
  have hAU : |AU| = AU := abs_of_pos (by norm_num [AU])
  rw [hAU]
  have hd : 0.98329 ≤ sunDistAu jd := sunDistAu_ge jd
  have hnorm : (⟨sunDistAu jd * Real.cos (sunEclLong jd),
      sunDistAu jd * Real.cos (sunObliquity jd) * Real.sin (sunEclLong jd),
      sunDistAu jd * Real.sin (sunObliquity jd) * Real.sin (sunEclLong jd)⟩ : V3).norm
      = sunDistAu jd := by
    unfold V3.norm
    have hlam := Real.sin_sq_add_cos_sq (sunEclLong jd)
    have heps := Real.sin_sq_add_cos_sq (sunObliquity jd)
    have hsum : (sunDistAu jd * Real.cos (sunEclLong jd)) ^ 2
        + (sunDistAu jd * Real.cos (sunObliquity jd) * Real.sin (sunEclLong jd)) ^ 2
        + (sunDistAu jd * Real.sin (sunObliquity jd) * Real.sin (sunEclLong jd)) ^ 2
        = sunDistAu jd ^ 2 := by
      linear_combination (sunDistAu jd ^ 2 * Real.sin (sunEclLong jd) ^ 2) * heps
        + sunDistAu jd ^ 2 * hlam
    rw [hsum]
    exact Real.sqrt_sq (by linarith)
  rw [hnorm]

lemma sun_norm_bounds (jd : ℝ) :
    1.47e11 ≤ (get_sun_position jd).norm ∧ (get_sun_position jd).norm ≤ 1.53e11 := by
  rw [sun_norm]
  have h1 := sunDistAu_le jd
  have h2 := sunDistAu_ge jd
  unfold AU
  constructor <;> nlinarith

lemma moonDist_bounds (jd : ℝ) :
    3.785e8 ≤ moonDist jd ∧ moonDist jd ≤ 3.915e8 := by
  unfold moonDist
  have h1 := Real.neg_one_le_cos (moonl jd - moonlp jd)
  have h2 := Real.cos_le_one (moonl jd - moonlp jd)
  constructor <;> nlinarith

lemma cos_moonLat_ge (jd : ℝ) : 0.99599 ≤ Real.cos (moonLat jd) := by
  have h : 1 - (moonLat jd) ^ 2 / 2 ≤ Real.cos (moonLat jd) :=
    Real.one_sub_sq_div_two_le_cos
  have hsq : (moonLat jd) ^ 2 ≤ 0.00802 := by
    unfold moonLat deg2rad
    have hs1 := Real.sin_le_one (moonF jd)
    have hs2 := Real.neg_one_le_sin (moonF jd)
    have hs : Real.sin (moonF jd) ^ 2 ≤ 1 := by nlinarith
    have hp1 := Real.pi_gt_d4
    have hp2 := Real.pi_lt_d4
    have hpsq : Real.pi ^ 2 ≤ 3.1416 ^ 2 := by nlinarith
    have hprod : Real.sin (moonF jd) ^ 2 * Real.pi ^ 2 ≤ 1 * 3.1416 ^ 2 :=
      mul_le_mul hs hpsq (sq_nonneg _) (by norm_num)
    nlinarith [hprod]
  linarith

lemma cos_obliquity_ge : 0.9163 ≤ Real.cos (deg2rad 23.439) := by
  have h : 1 - (deg2rad 23.439) ^ 2 / 2 ≤ Real.cos (deg2rad 23.439) :=
    Real.one_sub_sq_div_two_le_cos
  have hsq : (deg2rad 23.439) ^ 2 ≤ 0.16736 := by
    unfold deg2rad
    have hp1 := Real.pi_gt_d4
    have hp2 := Real.pi_lt_d4
    nlinarith
  linarith

lemma moon_norm_lb (jd : ℝ) : 3.45e8 ≤ (get_moon_position jd).norm := by
  unfold get_moon_position V3.norm
  apply Real.le_sqrt_of_sq_le
  have hD := (moonDist_bounds jd).1
  have hcl := cos_moonLat_ge jd
  have hce := cos_obliquity_ge
  have hce1 := Real.cos_le_one (deg2rad 23.439)
  have hlon := Real.sin_sq_add_cos_sq (moonLon jd)
  have hD0 : (0:ℝ) ≤ moonDist jd := by linarith
  have hDcl : (3.785e8 : ℝ) * 0.99599 ≤ moonDist jd * Real.cos (moonLat jd) :=
    mul_le_mul hD hcl (by norm_num) hD0
  have hDclce : ((3.785e8 : ℝ) * 0.99599) * 0.9163
      ≤ (moonDist jd * Real.cos (moonLat jd)) * Real.cos (deg2rad 23.439) :=
    mul_le_mul hDcl hce (by norm_num) (by nlinarith)
  have hkey : (3.45e8 : ℝ) ^ 2
      ≤ ((moonDist jd * Real.cos (moonLat jd)) * Real.cos (deg2rad 23.439)) ^ 2 := by
    have h0 : (3.45e8 : ℝ) ≤ (moonDist jd * Real.cos (moonLat jd)) * Real.cos (deg2rad 23.439) := by
      nlinarith
    exact pow_le_pow_left₀ (by norm_num) h0 2
  have hstep : ((moonDist jd * Real.cos (moonLat jd)) * Real.cos (deg2rad 23.439)) ^ 2
      ≤ (moonDist jd * Real.cos (moonLat jd) * Real.cos (moonLon jd)) ^ 2
        + (moonDist jd * Real.cos (moonLat jd) * Real.sin (moonLon jd)
            * Real.cos (deg2rad 23.439)) ^ 2 := by
    have hce2 : Real.cos (deg2rad 23.439) ^ 2 ≤ 1 := by nlinarith
    have hq : Real.cos (deg2rad 23.439) ^ 2
        ≤ Real.cos (moonLon jd) ^ 2
          + Real.sin (moonLon jd) ^ 2 * Real.cos (deg2rad 23.439) ^ 2 := by
      nlinarith [mul_nonneg (sq_nonneg (Real.cos (moonLon jd)))
        (sub_nonneg.mpr hce2)]
    nlinarith [sq_nonneg (moonDist jd * Real.cos (moonLat jd)), hq,
      mul_le_mul_of_nonneg_left hq (sq_nonneg (moonDist jd * Real.cos (moonLat jd)))]
  nlinarith [sq_nonneg (moonDist jd * (Real.sin (moonLat jd) * Real.cos (deg2rad 23.439)
    + Real.cos (moonLat jd) * Real.sin (moonLon jd) * Real.sin (deg2rad 23.439)))]

lemma moon_norm_ub (jd : ℝ) : (get_moon_position jd).norm ≤ 9.6e8 := by
  unfold get_moon_position V3.norm
  rw [Real.sqrt_le_iff]
  refine ⟨by norm_num, ?_⟩
  have hD1 := (moonDist_bounds jd).1
  have hD2 := (moonDist_bounds jd).2
  have hD0 : (0:ℝ) ≤ moonDist jd := by linarith
  have hcl2 : Real.cos (moonLat jd) ^ 2 ≤ 1 := Real.cos_sq_le_one _
  have hsl2 : Real.sin (moonLat jd) ^ 2 ≤ 1 := Real.sin_sq_le_one _
  have hclon2 : Real.cos (moonLon jd) ^ 2 ≤ 1 := Real.cos_sq_le_one _
  have hslon2 : Real.sin (moonLon jd) ^ 2 ≤ 1 := Real.sin_sq_le_one _
  have hce2 : Real.cos (deg2rad 23.439) ^ 2 ≤ 1 := Real.cos_sq_le_one _
  have hse2 : Real.sin (deg2rad 23.439) ^ 2 ≤ 1 := Real.sin_sq_le_one _
  have hDsq : moonDist jd ^ 2 ≤ (3.915e8 : ℝ) ^ 2 :=
    pow_le_pow_left₀ hD0 hD2 2
  have hx : (moonDist jd * Real.cos (moonLat jd) * Real.cos (moonLon jd)) ^ 2
      ≤ moonDist jd ^ 2 := by
    have h1 : moonDist jd ^ 2 * Real.cos (moonLat jd) ^ 2 ≤ moonDist jd ^ 2 * 1 :=
      mul_le_mul_of_nonneg_left hcl2 (sq_nonneg _)
    have h2 : moonDist jd ^ 2 * Real.cos (moonLat jd) ^ 2 * Real.cos (moonLon jd) ^ 2
        ≤ (moonDist jd ^ 2 * 1) * 1 :=
      mul_le_mul h1 hclon2 (sq_nonneg _) (by nlinarith [sq_nonneg (moonDist jd)])
    nlinarith [h2]
  have hy : (moonDist jd * Real.cos (moonLat jd) * Real.sin (moonLon jd)
      * Real.cos (deg2rad 23.439)) ^ 2 ≤ moonDist jd ^ 2 := by
    have h1 : moonDist jd ^ 2 * Real.cos (moonLat jd) ^ 2 ≤ moonDist jd ^ 2 * 1 :=
      mul_le_mul_of_nonneg_left hcl2 (sq_nonneg _)
    have h2 : moonDist jd ^ 2 * Real.cos (moonLat jd) ^ 2 * Real.sin (moonLon jd) ^ 2
        ≤ (moonDist jd ^ 2 * 1) * 1 :=
      mul_le_mul h1 hslon2 (sq_nonneg _) (by nlinarith [sq_nonneg (moonDist jd)])
    have h3 : moonDist jd ^ 2 * Real.cos (moonLat jd) ^ 2 * Real.sin (moonLon jd) ^ 2
        * Real.cos (deg2rad 23.439) ^ 2 ≤ ((moonDist jd ^ 2 * 1) * 1) * 1 :=
      mul_le_mul h2 hce2 (sq_nonneg _) (by nlinarith [sq_nonneg (moonDist jd)])
    nlinarith [h3]
  have hz : (moonDist jd * (Real.sin (moonLat jd) * Real.cos (deg2rad 23.439)
      + Real.cos (moonLat jd) * Real.sin (moonLon jd) * Real.sin (deg2rad 23.439))) ^ 2
      ≤ 4 * moonDist jd ^ 2 := by
    have ha : (Real.sin (moonLat jd) * Real.cos (deg2rad 23.439)) ^ 2 ≤ 1 := by
      nlinarith [sq_nonneg (Real.sin (moonLat jd)), sq_nonneg (Real.cos (deg2rad 23.439))]
    have hb : (Real.cos (moonLat jd) * Real.sin (moonLon jd) * Real.sin (deg2rad 23.439)) ^ 2
        ≤ 1 := by
      nlinarith [sq_nonneg (Real.cos (moonLat jd) * Real.sin (moonLon jd)),
        sq_nonneg (Real.sin (deg2rad 23.439)), sq_nonneg (Real.cos (moonLat jd)),
        sq_nonneg (Real.sin (moonLon jd))]
    have hsum : (Real.sin (moonLat jd) * Real.cos (deg2rad 23.439)
        + Real.cos (moonLat jd) * Real.sin (moonLon jd) * Real.sin (deg2rad 23.439)) ^ 2
        ≤ 4 := by
      nlinarith [sq_nonneg (Real.sin (moonLat jd) * Real.cos (deg2rad 23.439)
        - Real.cos (moonLat jd) * Real.sin (moonLon jd) * Real.sin (deg2rad 23.439))]
    have h4 : moonDist jd ^ 2 * (Real.sin (moonLat jd) * Real.cos (deg2rad 23.439)
        + Real.cos (moonLat jd) * Real.sin (moonLon jd) * Real.sin (deg2rad 23.439)) ^ 2
        ≤ moonDist jd ^ 2 * 4 :=
      mul_le_mul_of_nonneg_left hsum (sq_nonneg _)
    nlinarith [h4]
  nlinarith [hx, hy, hz, hDsq]

lemma norm_sub_le_v3 (a b : V3) : (a - b).norm ≤ a.norm + b.norm := by
  have h : a - b = a + -b := by ext <;> simp [sub_eq_add_neg]
  rw [h]
  have h2 := V3.norm_add_le a (-b)
  rw [V3.norm_neg] at h2
  exact h2

lemma norm_sdiv (a : V3) (c : ℝ) (hc : 0 ≤ c) : (a.sdiv c).norm = a.norm / c := by
  rw [sdiv_eq_smul, V3.norm_smul, abs_inv, abs_of_nonneg hc, inv_mul_eq_div]

/-- Upper bound for a third-body difference term
`(r−b)/‖r−b‖³ − b/‖b‖³`, by the triangle inequality. -/
lemma tb_term_ub (r b : V3) (hb : 0 < b.norm) (hd : 0 < (r - b).norm) :
    ((r - b).sdiv ((r - b).norm ^ 3) - b.sdiv (b.norm ^ 3)).norm
      ≤ 1 / (r - b).norm ^ 2 + 1 / b.norm ^ 2 := by
  have h1 := norm_sub_le_v3 ((r - b).sdiv ((r - b).norm ^ 3)) (b.sdiv (b.norm ^ 3))
  have h2 : ((r - b).sdiv ((r - b).norm ^ 3)).norm = 1 / (r - b).norm ^ 2 := by
    rw [norm_sdiv _ _ (by positivity)]
    rw [div_eq_div_iff (by positivity) (by positivity)]
    ring
  have h3 : (b.sdiv (b.norm ^ 3)).norm = 1 / b.norm ^ 2 := by
    rw [norm_sdiv _ _ (by positivity)]
    rw [div_eq_div_iff (by positivity) (by positivity)]
    ring
  rw [h2, h3] at h1
  exact h1

/-- Lower bound for a third-body difference term: the `b/‖b‖³` part dominates
when `‖r‖` is small compared to `‖r−b‖`. -/
lemma tb_term_lb (r b : V3) (hb : 0 < b.norm) (hd : 0 < (r - b).norm) :
    1 / b.norm ^ 2 - r.norm / (r - b).norm ^ 3
      ≤ ((r - b).sdiv ((r - b).norm ^ 3) - b.sdiv (b.norm ^ 3)).norm := by
  have hsplit : (r - b).sdiv ((r - b).norm ^ 3) - b.sdiv (b.norm ^ 3)
      = r.sdiv ((r - b).norm ^ 3)
        - (b.sdiv ((r - b).norm ^ 3) + b.sdiv (b.norm ^ 3)) := by
    unfold V3.sdiv
    ext <;> simp <;> ring
  rw [hsplit]
  have hrev : (r.sdiv ((r - b).norm ^ 3)
        - (b.sdiv ((r - b).norm ^ 3) + b.sdiv (b.norm ^ 3))).norm
      = ((b.sdiv ((r - b).norm ^ 3) + b.sdiv (b.norm ^ 3))
        - r.sdiv ((r - b).norm ^ 3)).norm := V3.norm_sub_comm _ _
  rw [hrev]
  have htri := V3.norm_sub_norm_le
    (b.sdiv ((r - b).norm ^ 3) + b.sdiv (b.norm ^ 3)) (r.sdiv ((r - b).norm ^ 3))
  have hA : (r.sdiv ((r - b).norm ^ 3)).norm = r.norm / (r - b).norm ^ 3 :=
    norm_sdiv _ _ (by positivity)
  have hB : 1 / b.norm ^ 2 ≤ (b.sdiv ((r - b).norm ^ 3) + b.sdiv (b.norm ^ 3)).norm := by
    have hcomb : b.sdiv ((r - b).norm ^ 3) + b.sdiv (b.norm ^ 3)
        = (((r - b).norm ^ 3)⁻¹ + (b.norm ^ 3)⁻¹) • b := by
      rw [sdiv_eq_smul, sdiv_eq_smul, add_smul_v3]
    rw [hcomb, V3.norm_smul]
    have hc0 : (0:ℝ) < ((r - b).norm ^ 3)⁻¹ + (b.norm ^ 3)⁻¹ := by positivity
    rw [abs_of_pos hc0]
    have hS3 : (b.norm ^ 3)⁻¹ * b.norm = 1 / b.norm ^ 2 := by
      rw [inv_mul_eq_div]
      rw [div_eq_div_iff (by positivity) (by positivity)]
      ring
    have hmono : ((b.norm ^ 3)⁻¹) * b.norm
        ≤ (((r - b).norm ^ 3)⁻¹ + (b.norm ^ 3)⁻¹) * b.norm := by
      have hd3 : (0:ℝ) ≤ ((r - b).norm ^ 3)⁻¹ := by positivity
      nlinarith
    linarith [hS3 ▸ hmono]
  rw [hA] at htri
  linarith

/-- The third-body model as the SPEC states it (named from the claim, for
comparison): `d_b = r_b − r` rather than the code's `r − r_b`, summed over Sun
and Moon. -/
noncomputable def claimed_third_body_acceleration (r : V3) (jd : ℝ) : V3 :=
  MU_SUN • ((get_sun_position jd - r).sdiv ((get_sun_position jd - r).norm ^ 3)
      - (get_sun_position jd).sdiv ((get_sun_position jd).norm ^ 3))
    + MU_MOON • ((get_moon_position jd - r).sdiv ((get_moon_position jd - r).norm ^ 3)
      - (get_moon_position jd).sdiv ((get_moon_position jd).norm ^ 3))

lemma norm_zero_v3 : (0 : V3).norm = 0 := by
  unfold V3.norm
  simp

lemma norm_self_sdiv_cube (v : V3) (hv : 0 < v.norm) :
    (v.sdiv (v.norm ^ 3)).norm = 1 / v.norm ^ 2 := by
  rw [norm_sdiv _ _ (by positivity), div_eq_div_iff (by positivity) (by positivity)]
  ring

lemma r0_norm : (⟨42164e3, 0, 0⟩ : V3).norm = 42164e3 := by
  rw [norm_x_only _ 42164e3 rfl rfl rfl, abs_of_pos (by norm_num)]

lemma Ds_bounds (jd : ℝ) :
    1.4695e11 ≤ ((⟨42164e3, 0, 0⟩ : V3) - get_sun_position jd).norm
    ∧ ((⟨42164e3, 0, 0⟩ : V3) - get_sun_position jd).norm ≤ 1.5305e11 := by
  have h1 := sun_norm_bounds jd
  have h2 := V3.norm_sub_norm_le (get_sun_position jd) (⟨42164e3, 0, 0⟩ : V3)
  have h3 := norm_sub_le_v3 (⟨42164e3, 0, 0⟩ : V3) (get_sun_position jd)
  have hc := V3.norm_sub_comm (⟨42164e3, 0, 0⟩ : V3) (get_sun_position jd)
  have hr := r0_norm
  constructor
  · rw [hc]
    linarith
  · linarith

lemma Dm_lb (jd : ℝ) : 3e8 ≤ ((⟨42164e3, 0, 0⟩ : V3) - get_moon_position jd).norm := by
  have h1 := moon_norm_lb jd
  have h2 := V3.norm_sub_norm_le (get_moon_position jd) (⟨42164e3, 0, 0⟩ : V3)
  have hc := V3.norm_sub_comm (⟨42164e3, 0, 0⟩ : V3) (get_moon_position jd)
  have hr := r0_norm
  rw [hc]
  linarith

lemma sun_term_norm_lb (jd : ℝ) :
    4.26e-23 ≤ (((⟨42164e3, 0, 0⟩ : V3) - get_sun_position jd).sdiv
        ((((⟨42164e3, 0, 0⟩ : V3) - get_sun_position jd)).norm ^ 3)
      - (get_sun_position jd).sdiv ((get_sun_position jd).norm ^ 3)).norm := by
  have hS := sun_norm_bounds jd
  have hb : 0 < (get_sun_position jd).norm := by linarith [hS.1]
  have hDs := Ds_bounds jd
  have hd : 0 < ((⟨42164e3, 0, 0⟩ : V3) - get_sun_position jd).norm := by
    linarith [hDs.1]
  have h := tb_term_lb (⟨42164e3, 0, 0⟩ : V3) (get_sun_position jd) hb hd
  rw [r0_norm] at h
  have hinv : (1:ℝ) / (1.53e11) ^ 2 ≤ 1 / (get_sun_position jd).norm ^ 2 := by
    apply one_div_le_one_div_of_le (by positivity)
    exact pow_le_pow_left₀ (by linarith) hS.2 2
  have hdiv : (42164e3 : ℝ) / ((⟨42164e3, 0, 0⟩ : V3) - get_sun_position jd).norm ^ 3
      ≤ (42164e3 : ℝ) / (1.4695e11) ^ 3 := by
    rw [div_le_div_iff (by positivity) (by norm_num)]
    have hk : ((1.4695e11 : ℝ)) ^ 3
        ≤ ((⟨42164e3, 0, 0⟩ : V3) - get_sun_position jd).norm ^ 3 :=
      pow_le_pow_left₀ (by norm_num) hDs.1 3
    nlinarith [hk]
  have hn1 : (4.27e-23 : ℝ) ≤ 1 / (1.53e11) ^ 2 := by norm_num
  have hn2 : (42164e3 : ℝ) / (1.4695e11) ^ 3 ≤ 2e-26 := by norm_num
  linarith

lemma moon_term_norm_ub (jd : ℝ) :
    (((⟨42164e3, 0, 0⟩ : V3) - get_moon_position jd).sdiv
        ((((⟨42164e3, 0, 0⟩ : V3) - get_moon_position jd)).norm ^ 3)
      - (get_moon_position jd).sdiv ((get_moon_position jd).norm ^ 3)).norm
      ≤ 2e-17 := by
  have hSm := moon_norm_lb jd
  have hb : 0 < (get_moon_position jd).norm := by linarith
  have hDm := Dm_lb jd
  have hd : 0 < ((⟨42164e3, 0, 0⟩ : V3) - get_moon_position jd).norm := by linarith
  have h := tb_term_ub (⟨42164e3, 0, 0⟩ : V3) (get_moon_position jd) hb hd
  have hinv1 : (1:ℝ) / ((⟨42164e3, 0, 0⟩ : V3) - get_moon_position jd).norm ^ 2
      ≤ 1 / (3e8) ^ 2 := by
    apply one_div_le_one_div_of_le (by norm_num)
    exact pow_le_pow_left₀ (by norm_num) hDm 2
  have hinv2 : (1:ℝ) / (get_moon_position jd).norm ^ 2 ≤ 1 / (3.45e8) ^ 2 := by
    apply one_div_le_one_div_of_le (by norm_num)
    exact pow_le_pow_left₀ (by norm_num) hSm 2
  have hn1 : (1:ℝ) / (3e8) ^ 2 ≤ 1.12e-17 := by norm_num
  have hn2 : (1:ℝ) / (3.45e8) ^ 2 ≤ 8.5e-18 := by norm_num
  linarith

/-- C2 (code bug): the claim states that `third_body_acceleration` returns
`Σ_b μ_b·(d_b/|d_b|³ − r_b/|r_b|³)` with `d_b = r_b − r`.  The code instead
uses `r − r_b` in the first term (sign-flipped), so at the geostationary test
position `r = (42164·10³, 0, 0)` m of the repository's own
`test_third_body_acceleration_magnitude` the code's output differs from the
claimed formula for EVERY Julian date, and its magnitude exceeds
`5·10⁻⁶ m/s²` for every Julian date — the upper bound that test asserts
(the claimed formula's tidal magnitude respects it; the code's does not). -/
theorem third_body_acceleration_code_bug :
    (∀ jd : ℝ, third_body_acceleration ⟨42164e3, 0, 0⟩ jd true true
        ≠ claimed_third_body_acceleration ⟨42164e3, 0, 0⟩ jd)
    ∧ (∀ jd : ℝ, 5e-6 < (third_body_acceleration ⟨42164e3, 0, 0⟩ jd true true).norm) := by
  have hcode : ∀ jd : ℝ, third_body_acceleration (⟨42164e3, 0, 0⟩ : V3) jd true true
      = MU_SUN • (((⟨42164e3, 0, 0⟩ : V3) - get_sun_position jd).sdiv
            ((((⟨42164e3, 0, 0⟩ : V3) - get_sun_position jd)).norm ^ 3)
          - (get_sun_position jd).sdiv ((get_sun_position jd).norm ^ 3))
        + MU_MOON • (((⟨42164e3, 0, 0⟩ : V3) - get_moon_position jd).sdiv
            ((((⟨42164e3, 0, 0⟩ : V3) - get_moon_position jd)).norm ^ 3)
          - (get_moon_position jd).sdiv ((get_moon_position jd).norm ^ 3)) := by
    intro jd
    have h0 : third_body_acceleration (⟨42164e3, 0, 0⟩ : V3) jd true true
        = ((0 : V3) + MU_SUN • (((⟨42164e3, 0, 0⟩ : V3) - get_sun_position jd).sdiv
              ((((⟨42164e3, 0, 0⟩ : V3) - get_sun_position jd)).norm ^ 3)
            - (get_sun_position jd).sdiv ((get_sun_position jd).norm ^ 3)))
          + MU_MOON • (((⟨42164e3, 0, 0⟩ : V3) - get_moon_position jd).sdiv
              ((((⟨42164e3, 0, 0⟩ : V3) - get_moon_position jd)).norm ^ 3)
            - (get_moon_position jd).sdiv ((get_moon_position jd).norm ^ 3)) := rfl
    rw [h0, zero_add_v3]
  constructor
  · intro jd hEq
    have hS := sun_norm_bounds jd
    have hDs := Ds_bounds jd
    have hDm := Dm_lb jd
    have hds : (0:ℝ) < ((⟨42164e3, 0, 0⟩ : V3) - get_sun_position jd).norm := by
      linarith [hDs.1]
    have hdm : (0:ℝ) < ((⟨42164e3, 0, 0⟩ : V3) - get_moon_position jd).norm := by
      linarith
    have hdiff : MU_SUN • ((2:ℝ) • (((⟨42164e3, 0, 0⟩ : V3) - get_sun_position jd).sdiv
            ((((⟨42164e3, 0, 0⟩ : V3) - get_sun_position jd)).norm ^ 3)))
          + MU_MOON • ((2:ℝ) • (((⟨42164e3, 0, 0⟩ : V3) - get_moon_position jd).sdiv
            ((((⟨42164e3, 0, 0⟩ : V3) - get_moon_position jd)).norm ^ 3)))
        = third_body_acceleration (⟨42164e3, 0, 0⟩ : V3) jd true true
          - claimed_third_body_acceleration (⟨42164e3, 0, 0⟩ : V3) jd := by
      rw [hcode jd]
      unfold claimed_third_body_acceleration
      have hs := V3.norm_sub_comm (get_sun_position jd) (⟨42164e3, 0, 0⟩ : V3)
      have hm := V3.norm_sub_comm (get_moon_position jd) (⟨42164e3, 0, 0⟩ : V3)
      rw [hs, hm]
      unfold V3.sdiv
      ext <;> simp <;> ring
    have hzero : third_body_acceleration (⟨42164e3, 0, 0⟩ : V3) jd true true
        - claimed_third_body_acceleration (⟨42164e3, 0, 0⟩ : V3) jd = 0 := by
      rw [hEq]
      ext <;> simp
    rw [hzero] at hdiff
    have hn0 := congrArg V3.norm hdiff
    rw [norm_zero_v3] at hn0
    have htri := norm_add_ge_sub
      (MU_SUN • ((2:ℝ) • (((⟨42164e3, 0, 0⟩ : V3) - get_sun_position jd).sdiv
        ((((⟨42164e3, 0, 0⟩ : V3) - get_sun_position jd)).norm ^ 3))))
      (MU_MOON • ((2:ℝ) • (((⟨42164e3, 0, 0⟩ : V3) - get_moon_position jd).sdiv
        ((((⟨42164e3, 0, 0⟩ : V3) - get_moon_position jd)).norm ^ 3))))
    rw [V3.norm_smul, V3.norm_smul, V3.norm_smul, V3.norm_smul,
      norm_self_sdiv_cube _ hds, norm_self_sdiv_cube _ hdm] at htri
    have habs_s : |MU_SUN| = MU_SUN := abs_of_pos (by norm_num [MU_SUN])
    have habs_m : |MU_MOON| = MU_MOON := abs_of_pos (by norm_num [MU_MOON])
    have habs2 : |(2:ℝ)| = 2 := by norm_num
    rw [habs_s, habs_m, habs2] at htri
    have hinv_s : (4.26e-23:ℝ)
        ≤ 1 / ((⟨42164e3, 0, 0⟩ : V3) - get_sun_position jd).norm ^ 2 := by
      have h1 : (1:ℝ) / (1.5305e11) ^ 2
          ≤ 1 / ((⟨42164e3, 0, 0⟩ : V3) - get_sun_position jd).norm ^ 2 := by
        apply one_div_le_one_div_of_le (by positivity)
        exact pow_le_pow_left₀ (by linarith [hDs.1]) hDs.2 2
      have h2 : (4.26e-23:ℝ) ≤ 1 / (1.5305e11) ^ 2 := by norm_num
      linarith
    have hinv_m : (1:ℝ) / ((⟨42164e3, 0, 0⟩ : V3) - get_moon_position jd).norm ^ 2
        ≤ 1.12e-17 := by
      have h1 : (1:ℝ) / ((⟨42164e3, 0, 0⟩ : V3) - get_moon_position jd).norm ^ 2
          ≤ 1 / (3e8) ^ 2 := by
        apply one_div_le_one_div_of_le (by norm_num)
        exact pow_le_pow_left₀ (by norm_num) hDm 2
      have h2 : (1:ℝ) / (3e8) ^ 2 ≤ 1.12e-17 := by norm_num
      linarith
    rw [hn0] at htri
    simp only [MU_SUN, MU_MOON] at htri
    linarith
  · intro jd
    rw [hcode jd]
    have hTs := sun_term_norm_lb jd
    have hTm := moon_term_norm_ub jd
    have htri := norm_add_ge_sub
      (MU_SUN • (((⟨42164e3, 0, 0⟩ : V3) - get_sun_position jd).sdiv
            ((((⟨42164e3, 0, 0⟩ : V3) - get_sun_position jd)).norm ^ 3)
          - (get_sun_position jd).sdiv ((get_sun_position jd).norm ^ 3)))
      (MU_MOON • (((⟨42164e3, 0, 0⟩ : V3) - get_moon_position jd).sdiv
            ((((⟨42164e3, 0, 0⟩ : V3) - get_moon_position jd)).norm ^ 3)
          - (get_moon_position jd).sdiv ((get_moon_position jd).norm ^ 3)))
    rw [V3.norm_smul, V3.norm_smul] at htri
    have habs_s : |MU_SUN| = MU_SUN := abs_of_pos (by norm_num [MU_SUN])
    have habs_m : |MU_MOON| = MU_MOON := abs_of_pos (by norm_num [MU_MOON])
    rw [habs_s, habs_m] at htri
    simp only [MU_SUN, MU_MOON] at htri ⊢
    linarith
